import Mathlib

set_option linter.unnecessarySeqFocus false

/-!
# Verification of the readynas-to-telegraf SNMP polling / normalization pipeline

This file is a shallow embedding, in Lean 4, of the core logic of the
readynas-to-telegraf repository:

* `snmp_utilities.py` — `SnmpQuery.cast`, `SnmpQuery.get_brief_name`,
  `SnmpQuery.fetch`;
* `get_readynas_stats.py` — the `GetReadyNasStats` table normalizers
  (disk / fan / temperature / volume), which emit flat JSON records;
* `gather_readynas_stats.py` — the module-level table normalizers, which
  emit InfluxDB points;
* `get_readynas_disk_stats.py` — the JSON disk-only variant;
* `influxdb_utilities.py` — `InfluxDbOps.influxdb_write`.

Python values that flow through the pipeline are modelled by `Scalar`
(integer / float / string); Python dictionaries by insertion-ordered
association lists with last-write-update semantics (`dictSet` / `dictGet`);
Python exceptions by `PyExc`; fallible Python code by `Except PyExc`.
External library calls (`int()`, `float()`, the regular-expression search of
`re.search`, the pysnmp iteration protocol, the InfluxDB client) are modelled
at their interface boundary, as explained in the doc comment of each
definition.
-/

/-- The Python exception classes that the embedded code can raise.
`valueError` models `ValueError` (used by the normalizers for unexpected
SNMP fields and by the dead format check of `get_brief_name`);
`attributeError` models `AttributeError` (raised when an attribute such as
`.group`, `.values` or `.items` is looked up on an object that lacks it);
`typeError` models `TypeError` (raised by `-` on non-numeric operands);
`runtimeError` models `RuntimeError` (raised by `SnmpQuery.fetch` on an SNMP
error); `unboundLocalError` models `UnboundLocalError` (raised by `del` of a
never-assigned local); `connectionError` stands for an arbitrary error raised
by the InfluxDB client library. -/
inductive PyExc where
  | valueError
  | attributeError
  | typeError
  | runtimeError
  | unboundLocalError
  | connectionError
deriving Repr, DecidableEq

deriving instance DecidableEq for Except

/-- The value of a Python `float`: a finite value (modelled exactly as a
rational, ignoring IEEE-754 rounding, which no claim depends on), a signed
infinity, or a NaN. -/
inductive PyFloat where
  | finite (q : Rat)
  | inf (neg : Bool)
  | nan
deriving Repr, DecidableEq

/-- A Scalar Value of the data model: the result of `SnmpQuery.cast`, one of
{integer, floating point, string}. -/
inductive Scalar where
  | int (n : Int)
  | float (f : PyFloat)
  | str (s : String)
deriving Repr, DecidableEq

/-- Python dictionary lookup `d[k]` on an insertion-ordered association
list, returning `none` when the key is absent.  With `Nodup` keys the first
match is the only match. -/
def dictGet {α : Type} : List (String × α) → String → Option α
  | [], _ => none
  | (k0, v0) :: rest, k => if k0 = k then some v0 else dictGet rest k

/-- Python dictionary assignment `d[k] = v`: an existing key keeps its
position and gets the new value, a new key is appended at the end
(CPython 3.7+ insertion-order semantics). -/
def dictSet {α : Type} : List (String × α) → String → α → List (String × α)
  | [], k, v => [(k, v)]
  | (k0, v0) :: rest, k, v =>
    if k0 = k then (k0, v) :: rest else (k0, v0) :: dictSet rest k v

/-- A Raw Row or Normalized Record: a Python dictionary from field name to
scalar value, in insertion order. -/
abbrev Row := List (String × Scalar)

theorem dictGet_dictSet {α : Type} (d : List (String × α)) (k k' : String) (v : α) :
    dictGet (dictSet d k v) k' = if k' = k then some v else dictGet d k' := by
  induction d with
  | nil =>
    by_cases h : k' = k
    · subst h; simp [dictSet, dictGet]
    · have h2 : ¬ k = k' := fun hh => h hh.symm
      simp [dictSet, dictGet, h, h2]
  | cons p rest ih =>
    obtain ⟨k0, v0⟩ := p
    by_cases h0 : k0 = k
    · subst h0
      by_cases h : k' = k0
      · subst h; simp [dictSet, dictGet]
      · have h2 : ¬ k0 = k' := fun hh => h hh.symm
        simp [dictSet, dictGet, h, h2]
    · by_cases h : k' = k0
      · subst h
        have hkk : ¬ k' = k := fun he => h0 (he ▸ rfl)
        simp [dictSet, dictGet, h0, hkk]
      · have h2 : ¬ k0 = k' := fun hh => h hh.symm
        simp [dictSet, dictGet, h0, h2, h, ih]

theorem dictGet_dictSet_ne {α : Type} (d : List (String × α)) (k k' : String) (v : α)
    (h : k' ≠ k) : dictGet (dictSet d k v) k' = dictGet d k' := by
  simp [dictGet_dictSet, h]

theorem dictGet_dictSet_eq {α : Type} (d : List (String × α)) (k : String) (v : α) :
    dictGet (dictSet d k v) k = some v := by
  simp [dictGet_dictSet]

namespace SnmpQuery

/-- Model of CPython `int(s)` on a string argument: optional surrounding
whitespace, an optional sign, then a non-empty run of ASCII decimal digits.
(Numeric-separator underscores and non-ASCII digits are not modelled; no
claim depends on them.)  Returns `none` where `int()` raises `ValueError`. -/
def pyIntOfString (s : String) : Option Int :=
  let cs := (s.data.dropWhile Char.isWhitespace).reverse.dropWhile Char.isWhitespace |>.reverse
  let (neg, ds) :=
    match cs with
    | '-' :: rest => (true, rest)
    | '+' :: rest => (false, rest)
    | rest => (false, rest)
  if ds ≠ [] ∧ ds.all Char.isDigit then
    let n : Nat := ds.foldl (fun acc c => 10 * acc + (c.toNat - '0'.toNat)) 0
    some (if neg then -(n : Int) else (n : Int))
  else
    none

/-- `10 ^ e` as an exact rational, for an integer exponent. -/
def pow10 : Int → Rat
  | .ofNat n => (10 : Rat) ^ n
  | .negSucc n => 1 / (10 : Rat) ^ (n + 1)

/-- Digit run to natural number. -/
def digitsToNat (ds : List Char) : Nat :=
  ds.foldl (fun acc c => 10 * acc + (c.toNat - '0'.toNat)) 0

/-- Model of CPython `float(s)` on a string argument: optional surrounding
whitespace, optional sign, then either a decimal literal
`digits [. digits] [e|E [sign] digits]` (with at least one digit in the
mantissa) or one of the special words `inf`, `infinity`, `nan`
(case-insensitive).  The numeric value is kept exactly as a rational.
Returns `none` where `float()` raises `ValueError`. -/
def pyFloatOfString (s : String) : Option PyFloat :=
  let cs := (s.data.dropWhile Char.isWhitespace).reverse.dropWhile Char.isWhitespace |>.reverse
  let (neg, body) :=
    match cs with
    | '-' :: rest => (true, rest)
    | '+' :: rest => (false, rest)
    | rest => (false, rest)
  let lower := body.map Char.toLower
  if lower = "inf".data ∨ lower = "infinity".data then
    some (.inf neg)
  else if lower = "nan".data then
    some .nan
  else
    let ip := body.takeWhile Char.isDigit
    let afterIp := body.dropWhile Char.isDigit
    let (fp, afterFp) :=
      match afterIp with
      | '.' :: rest => (rest.takeWhile Char.isDigit, rest.dropWhile Char.isDigit)
      | rest => ([], rest)
    if ip = [] ∧ fp = [] then
      none
    else
      let mantissa : Rat := (digitsToNat (ip ++ fp) : Rat) * pow10 (-(fp.length : Int))
      match afterFp with
      | [] => some (.finite (if neg then -mantissa else mantissa))
      | e :: rest =>
        if e = 'e' ∨ e = 'E' then
          let (eneg, eds) :=
            match rest with
            | '-' :: r => (true, r)
            | '+' :: r => (false, r)
            | r => (false, r)
          if eds ≠ [] ∧ eds.all Char.isDigit then
            let ex : Int := (digitsToNat eds : Int)
            let q := mantissa * pow10 (if eneg then -ex else ex)
            some (.finite (if neg then -q else q))
          else
            none
        else
          none

/-- `SnmpQuery.cast` (`snmp_utilities.py` lines 29-52): attempt `int(value)`,
on `ValueError`/`TypeError` attempt `float(value)`, then `str(value)`.  For a
string argument `str()` is the identity and never raises, so the final
fallback returns the value unchanged. -/
def cast (value : String) : Scalar :=
  match pyIntOfString value with
  | some n => .int n
  | none =>
    match pyFloatOfString value with
    | some f => .float f
    | none => .str value

/-- The scan of `re.search('(?<=::)(.*?)(?=\.)', s)`: finds the earliest
position immediately preceded by `::`; the lazy group then extends to the
first following `.` (the lookahead).  Returns the characters after the first
`::`, or `none` when the string has no `::` at all. -/
def afterColons : List Char → Option (List Char)
  | ':' :: ':' :: rest => some rest
  | _ :: rest => afterColons rest
  | [] => none

/-- `type(brief_name.group()) is str`: the group of a successful match is
always a `str`, so this test is always true — the `ValueError` branch of the
source is dead code. -/
def group_is_str (_g : List Char) : Bool := true

/-- `SnmpQuery.get_brief_name` (`snmp_utilities.py` lines 182-203):
`re.search('(?<=::)(.*?)(?=\.)', full_name)` followed by `.group()`.
When the pattern has no match, `re.search` returns `None` and
`None.group()` raises `AttributeError`; the guarded `raise ValueError`
of the source is unreachable because a successful match's group is always a
string.  The lazy group is the text between the first `::` and the first `.`
after it; there is a match exactly when some `.` follows the first `::`
(any `.` after a later `::` is also after the first one). -/
def get_brief_name (full_name : String) : Except PyExc String :=
  match afterColons full_name.data with
  | none => .error .attributeError
  | some rest =>
    if rest.any (fun c => c = '.') then
      let grp := rest.takeWhile (fun c => ¬ c = '.')
      if group_is_str grp then .ok (String.mk grp) else .error .valueError
    else
      .error .attributeError

/-- One iteration step of a pysnmp `getCmd`/`nextCmd` handler: the error
indication (modelled by its truthiness), the error status (an integer,
truthy when non-zero), and the variable bindings of the step, each binding
modelled by its `prettyPrint` display name and the textual form of its value
(which `fetch` passes through `cast`). -/
structure SnmpStep where
  error_indication : Bool
  error_status : Nat
  var_binds : List (String × String)
deriving Repr, DecidableEq

/-- `SnmpQuery.fetch` (`snmp_utilities.py` lines 120-146): iterate the
handler; on a step with no error indication and zero error status build the
`items` dictionary (`items[name] = cast(value)`) and append it to `result`;
otherwise `raise RuntimeError(...)`, which propagates (it is not a
`StopIteration`) and discards the rows accumulated so far. -/
def fetch : List SnmpStep → Except PyExc (List Row)
  | [] => .ok []
  | step :: rest =>
    if step.error_indication = false ∧ step.error_status = 0 then
      match fetch rest with
      | .ok rows =>
          .ok ((step.var_binds.foldl (fun d p => dictSet d p.1 (cast p.2)) []) :: rows)
      | .error e => .error e
    else
      .error .runtimeError

end SnmpQuery

/-! ## Generic machinery for the per-row field loops

Every table normalizer of the repository iterates `for key, value in
row.items()` over a raw row, threading some state (the record dictionaries
being built, plus for the volume table the `total_space` / `free_space`
locals) and raising an exception on an unexpected field.  `processFields`
is that loop; each normalizer supplies its own step function, translated
line by line from the corresponding `if`/`elif` chain. -/

/-- The `for key, value in entry.items():` loop of a normalizer, threading
state `s` through `step`; an exception raised by the body aborts the loop. -/
def processFields {σ : Type} (step : σ → String × Scalar → Except PyExc σ) :
    List (String × Scalar) → σ → Except PyExc σ
  | [], s => .ok s
  | kv :: rest, s =>
    match step s kv with
    | .error e => .error e
    | .ok s1 => processFields step rest s1

/-- If a pure observable `track` of the state evolves under every successful
step as a fold of `g`, then after a successful run of the whole loop it
equals the fold of `g` over the row. -/
theorem processFields_track {σ A : Type} (step : σ → String × Scalar → Except PyExc σ)
    (track : σ → A) (g : A → String × Scalar → A)
    (hstep : ∀ s kv s1, step s kv = .ok s1 → track s1 = g (track s) kv) :
    ∀ (l : List (String × Scalar)) (s s1 : σ),
      processFields step l s = .ok s1 → track s1 = l.foldl g (track s) := by
  intro l
  induction l with
  | nil =>
    intro s s1 h
    simp only [processFields] at h
    cases h
    simp
  | cons kv rest ih =>
    intro s s1 h
    simp only [processFields] at h
    cases hs : step s kv with
    | error e => rw [hs] at h; cases h
    | ok s2 =>
      rw [hs] at h
      rw [ih s2 s1 h, List.foldl_cons, hstep s kv s2 hs]

/-- A successful run of the loop only ever took successful steps: every
field of the row is accepted by `step` from the state it was reached in. -/
theorem processFields_ok_mem {σ : Type} (step : σ → String × Scalar → Except PyExc σ)
    (P : String × Scalar → Prop)
    (hstep : ∀ s kv s1, step s kv = .ok s1 → P kv) :
    ∀ (l : List (String × Scalar)) (s s1 : σ),
      processFields step l s = .ok s1 → ∀ kv ∈ l, P kv := by
  intro l
  induction l with
  | nil => intro s s1 _ kv hkv; cases hkv
  | cons kv0 rest ih =>
    intro s s1 h kv hkv
    simp only [processFields] at h
    cases hs : step s kv0 with
    | error e => rw [hs] at h; cases h
    | ok s2 =>
      rw [hs] at h
      rcases List.mem_cons.mp hkv with heq | hmem
      · exact heq ▸ hstep s kv0 s2 hs
      · exact ih s2 s1 h kv hmem

/-- If every field of the row that satisfies `good` is accepted by `step`
from any state, and every field that does not is rejected with the fixed
exception `E` from any state, then a row containing a bad field makes the
whole loop fail with `E`. -/
theorem processFields_bad_field {σ : Type} (step : σ → String × Scalar → Except PyExc σ)
    (good : String × Scalar → Prop) (E : PyExc)
    (l : List (String × Scalar))
    (hgood : ∀ kv ∈ l, good kv → ∀ s, ∃ s1, step s kv = .ok s1)
    (hbad : ∀ kv ∈ l, ¬ good kv → ∀ s, step s kv = .error E)
    (hex : ∃ kv ∈ l, ¬ good kv) :
    ∀ s, processFields step l s = .error E := by
  induction l with
  | nil => rcases hex with ⟨kv, hkv, _⟩; cases hkv
  | cons kv0 rest ih =>
    intro s
    by_cases h0 : good kv0
    · rcases hgood kv0 (List.mem_cons_self _ _) h0 s with ⟨s1, hs1⟩
      have hex' : ∃ kv ∈ rest, ¬ good kv := by
        rcases hex with ⟨kv, hkv, hbadkv⟩
        rcases List.mem_cons.mp hkv with heq | hmem
        · exact absurd (heq ▸ h0) hbadkv
        · exact ⟨kv, hmem, hbadkv⟩
      simp only [processFields, hs1]
      exact ih (fun kv hkv => hgood kv (List.mem_cons_of_mem _ hkv))
        (fun kv hkv => hbad kv (List.mem_cons_of_mem _ hkv)) hex' s1
  
    · simp only [processFields, hbad kv0 (List.mem_cons_self _ _) h0 s]

/-- `updOf m`: the one-step update of an observed optional value, where a
field either overwrites the observation (`m kv = some x`) or leaves it
alone (`m kv = none`).  The dictionary observations of all the normalizers
fold like this. -/
def updOf {A : Type} (m : String × Scalar → Option A) (a : Option A)
    (kv : String × Scalar) : Option A :=
  match m kv with
  | some x => some x
  | none => a

theorem foldl_updOf_none {A : Type} (m : String × Scalar → Option A)
    (l : List (String × Scalar)) (hm : ∀ kv ∈ l, m kv = none) (a : Option A) :
    l.foldl (updOf m) a = a := by
  induction l generalizing a with
  | nil => simp
  | cons kv rest ih =>
    rw [List.foldl_cons]
    have h0 := hm kv (List.mem_cons_self _ _)
    rw [show updOf m a kv = a by simp [updOf, h0]]
    exact ih (fun kv hkv => hm kv (List.mem_cons_of_mem _ hkv)) a

/-- If a single field of the row is the only one that updates the
observation, the fold ends at its update. -/
theorem foldl_updOf_unique {A : Type} (m : String × Scalar → Option A)
    (l : List (String × Scalar)) (kv0 : String × Scalar) (x : A)
    (hmem : kv0 ∈ l) (hm : m kv0 = some x)
    (huniq : ∀ kv ∈ l, m kv ≠ none → kv = kv0) :
    ∀ a, l.foldl (updOf m) a = some x := by
  induction l with
  | nil => cases hmem
  | cons kv1 rest ih =>
    intro a
    by_cases hr : kv0 ∈ rest
    · rw [List.foldl_cons]
      exact ih hr (fun kv hkv => huniq kv (List.mem_cons_of_mem _ hkv)) _
    · have h1 : kv1 = kv0 := by
        rcases List.mem_cons.mp hmem with heq | hmem'
        · exact heq.symm
        · exact absurd hmem' hr
      subst h1
      rw [List.foldl_cons, show updOf m a kv1 = some x by simp [updOf, hm]]
      exact foldl_updOf_none m rest
        (fun kv hkv => by
          by_contra hne
          exact hr ((huniq kv (List.mem_cons_of_mem _ hkv) hne) ▸ hkv))
        (some x)

namespace GetReadyNasStats

/-! ## `get_readynas_stats.py` — the JSON-emitting `GetReadyNasStats` class

The class obtains its rows from `self.bulkwalk(oids)` (defined in a git
submodule that is not part of this repository), then builds one flat record
per row and prints the list as JSON.  The disk normalizer iterates the walk
result directly, while the fan / temperature / volume normalizers iterate
`walk_result.values()`; both consumption patterns are modelled below over
the two Python shapes a walk result can plainly have — a list of row
dictionaries or a dictionary whose values are row dictionaries. -/

/-- The shape of a walk result: a Python list of row dictionaries, or a
Python dictionary (with hashable, hence non-dictionary — here string — keys)
whose values are row dictionaries. -/
inductive WalkResult where
  | pylist (rows : List Row)
  | pydict (entries : List (String × Row))
deriving Repr, DecidableEq

/-- An element produced by `for entry in walk_result`: iterating a Python
list yields its items (row dictionaries); iterating a dictionary yields its
keys. -/
inductive PyVal where
  | row (r : Row)
  | strkey (s : String)
deriving Repr, DecidableEq

/-- `for entry in walk_result`: a list yields its rows, a dictionary yields
its keys. -/
def pyIterate : WalkResult → List PyVal
  | .pylist rows => rows.map PyVal.row
  | .pydict entries => entries.map (fun p => PyVal.strkey p.1)

/-- `walk_result.values()`: a Python list has no attribute `values`, so the
call raises `AttributeError`; a dictionary yields its values. -/
def pyValues : WalkResult → Except PyExc (List Row)
  | .pylist _ => .error .attributeError
  | .pydict entries => .ok (entries.map (fun p => p.2))

/-- `entry.items()`: a row dictionary yields its key/value pairs; a string
(a dictionary key produced by iterating a dictionary directly) has no
attribute `items`, so the call raises `AttributeError`. -/
def pyItems : PyVal → Except PyExc (List (String × Scalar))
  | .row r => .ok r
  | .strkey _ => .error .attributeError

/-- The row dictionaries a walk result carries, whichever shape it has. -/
def walkRows : WalkResult → List Row
  | .pylist rows => rows
  | .pydict entries => entries.map (fun p => p.2)

/-- The body of the disk-table field loop (`get_readynas_stats.py` lines
109-131): rename `diskNumber` / `ataError` / `diskTemperature`, map
`diskState` to `0` for `'ONLINE'` and `1` otherwise, raise `ValueError` on
any other field. -/
def disk_step (fields : Row) (kv : String × Scalar) : Except PyExc Row :=
  let (key, value) := kv
  if key = "diskNumber" then .ok (dictSet fields "disk_number" value)
  else if key = "ataError" then .ok (dictSet fields "ata_error_count" value)
  else if key = "diskState" then
    .ok (dictSet fields "disk_status" (if value = .str "ONLINE" then .int 0 else .int 1))
  else if key = "diskTemperature" then .ok (dictSet fields "disk_temperature" value)
  else .error .valueError

/-- The body of the fan-table field loop (`get_readynas_stats.py` lines
173-192): rename `fanNumber` / `fanRPM`, map `fanStatus` to `0` for `'ok'`
and `1` otherwise, raise `ValueError` on any other field. -/
def fan_step (fields : Row) (kv : String × Scalar) : Except PyExc Row :=
  let (key, value) := kv
  if key = "fanNumber" then .ok (dictSet fields "fan_number" value)
  else if key = "fanRPM" then .ok (dictSet fields "fan_speed_rpm" value)
  else if key = "fanStatus" then
    .ok (dictSet fields "fan_status" (if value = .str "ok" then .int 0 else .int 1))
  else .error .valueError

/-- The body of the temperature-table field loop (`get_readynas_stats.py`
lines 265-276): rename `temperatureNumber` / `temperatureValue`, raise
`ValueError` on any other field. -/
def temperature_step (fields : Row) (kv : String × Scalar) : Except PyExc Row :=
  let (key, value) := kv
  if key = "temperatureNumber" then .ok (dictSet fields "temperature_number" value)
  else if key = "temperatureValue" then .ok (dictSet fields "temperature_celsius" value)
  else .error .valueError

/-- Python `-` on two scalar values: exact on integers, exact rational
arithmetic on finite floats, `TypeError` on a string operand.  (Arithmetic
on non-finite floats is not reached by any volume row considered here and
is conservatively mapped to `TypeError` as well.) -/
def scalarSub : Scalar → Scalar → Except PyExc Scalar
  | .int a, .int b => .ok (.int (a - b))
  | .int a, .float (.finite q) => .ok (.float (.finite ((a : Rat) - q)))
  | .float (.finite q), .int b => .ok (.float (.finite (q - (b : Rat))))
  | .float (.finite a), .float (.finite b) => .ok (.float (.finite (a - b)))
  | _, _ => .error .typeError

/-- The `volumeStatus` branch chain (`get_readynas_stats.py` lines 344-363):
an exact string match sets `volume_status` to the code `0`-`5`; any other
value falls through all six `elif` arms and leaves the record unchanged. -/
def volumeStatusFields (fields : Row) (value : Scalar) : Row :=
  if value = .str "REDUNDANT" then dictSet fields "volume_status" (.int 0)
  else if value = .str "DEGRADED" then dictSet fields "volume_status" (.int 1)
  else if value = .str "UNPROTECTED" then dictSet fields "volume_status" (.int 2)
  else if value = .str "DEAD" then dictSet fields "volume_status" (.int 3)
  else if value = .str "INACTIVE" then dictSet fields "volume_status" (.int 4)
  else if value = .str "UNKNOWN" then dictSet fields "volume_status" (.int 5)
  else fields

/-- The `if`/`elif` chain of the volume-table field loop
(`get_readynas_stats.py` lines 336-378), before the used-space check:
renames the field, records `total_space` / `free_space` for `volumeSize` /
`volumeFreeSpace`, raises `ValueError` on an unknown field. -/
def volumeBranch (fields : Row) (total_space free_space : Option Scalar)
    (key : String) (value : Scalar) :
    Except PyExc (Row × Option Scalar × Option Scalar) :=
  if key = "volumeNumber" then
    .ok (dictSet fields "volume_number" value, total_space, free_space)
  else if key = "volumeRAIDLevel" then
    .ok (dictSet fields "volume_raid_level" value, total_space, free_space)
  else if key = "volumeStatus" then
    .ok (volumeStatusFields fields value, total_space, free_space)
  else if key = "volumeSize" then
    .ok (dictSet fields "volume_total_size_mb" value, some value, free_space)
  else if key = "volumeFreeSpace" then
    .ok (dictSet fields "volume_free_space_mb" value, total_space, some value)
  else .error .valueError

/-- The used-space computation at the bottom of each volume loop iteration
(`get_readynas_stats.py` lines 380-383): once both `total_space` and
`free_space` have been observed, `volume_used_space_mb` is (re)assigned to
their difference. -/
def usedSpaceCheck (fields : Row) : Option Scalar → Option Scalar → Except PyExc Row
  | some t, some f =>
    (match scalarSub t f with
     | .ok u => .ok (dictSet fields "volume_used_space_mb" u)
     | .error e => .error e)
  | _, _ => .ok fields

/-- One full iteration of the volume field loop: the branch chain followed
by the used-space check. -/
def volume_step (s : Row × Option Scalar × Option Scalar) (kv : String × Scalar) :
    Except PyExc (Row × Option Scalar × Option Scalar) :=
  match volumeBranch s.1 s.2.1 s.2.2 kv.1 kv.2 with
  | .error e => .error e
  | .ok (fields1, t1, f1) =>
    match usedSpaceCheck fields1 t1 f1 with
    | .error e => .error e
    | .ok fields2 => .ok (fields2, t1, f1)

/-- One disk row: `fields = {}` then `fields['host'] = device_name['sysName']`
then the field loop. -/
def process_disk_row (sysName : Scalar) (row : Row) : Except PyExc Row :=
  processFields disk_step row (dictSet [] "host" sysName)

/-- One fan row. -/
def process_fan_row (sysName : Scalar) (row : Row) : Except PyExc Row :=
  processFields fan_step row (dictSet [] "host" sysName)

/-- One temperature row. -/
def process_temperature_row (sysName : Scalar) (row : Row) : Except PyExc Row :=
  processFields temperature_step row (dictSet [] "host" sysName)

/-- One volume row: `free_space = None`, `total_space = None`, `fields`
seeded with `host`, then the field loop. -/
def process_volume_row (sysName : Scalar) (row : Row) : Except PyExc Row :=
  match processFields volume_step row (dictSet [] "host" sysName, none, none) with
  | .error e => .error e
  | .ok (fields, _, _) => .ok fields

/-- One disk-loop entry as the source consumes it: `entry.items()` (which
raises `AttributeError` if the entry is a dictionary key rather than a row)
followed by the row processing. -/
def process_disk_entry (sysName : Scalar) (entry : PyVal) : Except PyExc Row :=
  match pyItems entry with
  | .error e => .error e
  | .ok items => process_disk_row sysName items

/-- The `measurement_list` accumulation loop shared by all four tables: an
exception raised while processing any entry aborts the invocation before
`print(json.dumps(measurement_list))`, so nothing at all is emitted. -/
def emitRows (f : PyVal → Except PyExc Row) : List PyVal → Except PyExc (List Row)
  | [] => .ok []
  | e :: es =>
    match f e with
    | .error exc => .error exc
    | .ok r =>
      match emitRows f es with
      | .error exc => .error exc
      | .ok rs => .ok (r :: rs)

/-- `GetReadyNasStats.process_readynas_disk_table`: iterates the walk result
directly (`for disk_entry in disk_entries:`). -/
def process_readynas_disk_table (sysName : Scalar) (disk_entries : WalkResult) :
    Except PyExc (List Row) :=
  emitRows (process_disk_entry sysName) (pyIterate disk_entries)

/-- `GetReadyNasStats.process_readynas_fan_table`: iterates
`fan_entries.values()`. -/
def process_readynas_fan_table (sysName : Scalar) (fan_entries : WalkResult) :
    Except PyExc (List Row) :=
  match pyValues fan_entries with
  | .error e => .error e
  | .ok rows => emitRows (fun e =>
      match pyItems e with
      | .error exc => .error exc
      | .ok items => process_fan_row sysName items) (rows.map PyVal.row)

/-- `GetReadyNasStats.process_readynas_temperature_table`: iterates
`temperature_entries.values()`. -/
def process_readynas_temperature_table (sysName : Scalar)
    (temperature_entries : WalkResult) : Except PyExc (List Row) :=
  match pyValues temperature_entries with
  | .error e => .error e
  | .ok rows => emitRows (fun e =>
      match pyItems e with
      | .error exc => .error exc
      | .ok items => process_temperature_row sysName items) (rows.map PyVal.row)

/-- `GetReadyNasStats.process_readynas_volume_table`: iterates
`volume_entries.values()`. -/
def process_readynas_volume_table (sysName : Scalar) (volume_entries : WalkResult) :
    Except PyExc (List Row) :=
  match pyValues volume_entries with
  | .error e => .error e
  | .ok rows => emitRows (fun e =>
      match pyItems e with
      | .error exc => .error exc
      | .ok items => process_volume_row sysName items) (rows.map PyVal.row)

/-- The disk-table invocation paired with the number of device-name queries
it performs: `device_name = self.get_snmp_name()` is executed exactly once,
between the walk and the row loop (`get_readynas_stats.py` line 99),
regardless of how many rows the walk returned. -/
def disk_table_invocation (sysName : Scalar) (w : WalkResult) :
    Except PyExc (List Row) × Nat :=
  (process_readynas_disk_table sysName w, 1)

end GetReadyNasStats

namespace Gather

/-! ## `gather_readynas_stats.py` — the InfluxDB-writing module-level variant

Each table function walks the device with `snmp.get_next`, then builds one
InfluxDB point per row.  Field keys arrive as full display names
(`MIB::attr.idx`) and are resolved with `snmp.get_brief_name` at every
comparison; `tags['host'] = snmp.get_snmp_name(host, community_string)` is
executed inside the row loop, so the device name is queried once per row. -/

/-- An InfluxDB point as assembled by the gather variant: the measurement
name, the tag set and the field set.  The `time` entry is the wall-clock
value of `get_influxdb_timestamp()` and stays outside the model. -/
structure Point where
  measurement : String
  tags : Row
  fields : Row
deriving Repr, DecidableEq

/-- The body of the gather disk field loop (`gather_readynas_stats.py`
lines 150-172): every arm resolves the key with `get_brief_name` (so a
malformed key raises before any comparison succeeds); `diskNumber` becomes
a tag, the rest become fields, an unknown brief name raises `ValueError`. -/
def disk_step (s : Row × Row) (kv : String × Scalar) : Except PyExc (Row × Row) :=
  let (tags, fields) := s
  let (key, value) := kv
  match SnmpQuery.get_brief_name key with
  | .error e => .error e
  | .ok brief =>
    if brief = "diskNumber" then .ok (dictSet tags "disk_number" value, fields)
    else if brief = "ataError" then .ok (tags, dictSet fields "ata_error_count" value)
    else if brief = "diskState" then
      .ok (tags, dictSet fields "disk_status"
        (if value = .str "ONLINE" then .int 0 else .int 1))
    else if brief = "diskTemperature" then
      .ok (tags, dictSet fields "disk_temperature" value)
    else .error .valueError

/-- The `volumeStatus` branch chain of the gather variant
(`gather_readynas_stats.py` lines 404-423): an exact string match sets
`volume_status` to the code `1`-`6`; any other value falls through all six
arms and leaves the field set unchanged. -/
def volumeStatusFields (fields : Row) (value : Scalar) : Row :=
  if value = .str "REDUNDANT" then dictSet fields "volume_status" (.int 1)
  else if value = .str "DEGRADED" then dictSet fields "volume_status" (.int 2)
  else if value = .str "UNPROTECTED" then dictSet fields "volume_status" (.int 3)
  else if value = .str "DEAD" then dictSet fields "volume_status" (.int 4)
  else if value = .str "INACTIVE" then dictSet fields "volume_status" (.int 5)
  else if value = .str "UNKNOWN" then dictSet fields "volume_status" (.int 6)
  else fields

/-- The body of the gather volume field loop (`gather_readynas_stats.py`
lines 396-434): `volumeNumber` becomes a tag, `volumeName` / `volumeSize` /
`volumeFreeSpace` become the fields `volume_name` / `volume_size_mb` /
`volume_free_mb`, `volumeStatus` goes through the `1`-`6` chain, an unknown
brief name raises `ValueError`.  No used-space computation exists in this
variant. -/
def volume_step (s : Row × Row) (kv : String × Scalar) : Except PyExc (Row × Row) :=
  let (tags, fields) := s
  let (key, value) := kv
  match SnmpQuery.get_brief_name key with
  | .error e => .error e
  | .ok brief =>
    if brief = "volumeNumber" then .ok (dictSet tags "volume_number" value, fields)
    else if brief = "volumeName" then .ok (tags, dictSet fields "volume_name" value)
    else if brief = "volumeStatus" then .ok (tags, volumeStatusFields fields value)
    else if brief = "volumeSize" then .ok (tags, dictSet fields "volume_size_mb" value)
    else if brief = "volumeFreeSpace" then .ok (tags, dictSet fields "volume_free_mb" value)
    else .error .valueError

/-- One gather disk row: `tags = {'host': get_snmp_name(...)}` (queried here,
inside the row loop), empty field set, then the field loop; the final point
carries the measurement name `snmp_disk_stats`. -/
def process_disk_row (host_name : Scalar) (row : Row) : Except PyExc Point :=
  match processFields disk_step row (dictSet [] "host" host_name, []) with
  | .error e => .error e
  | .ok (tags, fields) => .ok ⟨"snmp_disk_stats", tags, fields⟩

/-- One gather volume row, measurement name `snmp_volume_stats`. -/
def process_volume_row (host_name : Scalar) (row : Row) : Except PyExc Point :=
  match processFields volume_step row (dictSet [] "host" host_name, []) with
  | .error e => .error e
  | .ok (tags, fields) => .ok ⟨"snmp_volume_stats", tags, fields⟩

/-- The gather disk-table row loop, paired with the number of
`get_snmp_name` device-name queries it performs: the call sits inside the
loop body (`gather_readynas_stats.py` line 148), so each processed row costs
one query; an exception aborts the loop (and the later `influxdb_write`)
after the query of the failing row. -/
def disk_table_invocation (host_name : Scalar) :
    List Row → Except PyExc (List Point) × Nat
  | [] => (.ok [], 0)
  | row :: rest =>
    match process_disk_row host_name row with
    | .error e => (.error e, 1)
    | .ok p =>
      match disk_table_invocation host_name rest with
      | (.error e, n) => (.error e, n + 1)
      | (.ok ps, n) => (.ok (p :: ps), n + 1)

/-- The gather volume-table row loop (device-name query count omitted). -/
def volume_table (host_name : Scalar) : List Row → Except PyExc (List Point)
  | [] => .ok []
  | row :: rest =>
    match process_volume_row host_name row with
    | .error e => .error e
    | .ok p =>
      match volume_table host_name rest with
      | .error e => .error e
      | .ok ps => .ok (p :: ps)

end Gather

namespace GetReadyNasDiskStats

/-! ## `get_readynas_disk_stats.py` — the JSON disk-only variant

Same field rules as the gather disk table, but every normalized value lands
in one flat record, `host` included, and `fields['host'] =
snmp.get_snmp_name(host, community_string)` again sits inside the row loop
(line 113): one device-name query per row. -/

/-- The body of the field loop (`get_readynas_disk_stats.py` lines 115-137). -/
def disk_step (fields : Row) (kv : String × Scalar) : Except PyExc Row :=
  let (key, value) := kv
  match SnmpQuery.get_brief_name key with
  | .error e => .error e
  | .ok brief =>
    if brief = "diskNumber" then .ok (dictSet fields "disk_number" value)
    else if brief = "ataError" then .ok (dictSet fields "ata_error_count" value)
    else if brief = "diskState" then
      .ok (dictSet fields "disk_status"
        (if value = .str "ONLINE" then .int 0 else .int 1))
    else if brief = "diskTemperature" then .ok (dictSet fields "disk_temperature" value)
    else .error .valueError

/-- One row: `fields = \x7b'host': get_snmp_name(...)\x7d` (queried inside the row
loop), then the field loop. -/
def process_disk_row (host_name : Scalar) (row : Row) : Except PyExc Row :=
  processFields disk_step row (dictSet [] "host" host_name)

/-- The row loop paired with the number of device-name queries: one per
processed row. -/
def disk_table_invocation (host_name : Scalar) :
    List Row → Except PyExc (List Row) × Nat
  | [] => (.ok [], 0)
  | row :: rest =>
    match process_disk_row host_name row with
    | .error e => (.error e, 1)
    | .ok r =>
      match disk_table_invocation host_name rest with
      | (.error e, n) => (.error e, n + 1)
      | (.ok rs, n) => (.ok (r :: rs), n + 1)

end GetReadyNasDiskStats

namespace InfluxDbOps

/-! ## `influxdb_utilities.py` — `InfluxDbOps.influxdb_write`

The method body is `try: client = self.influxdb_connect(); status =
client.write_points(...); return status is True ... except: print(...);
raise finally: del client`.  The two external effects — establishing the
client and the `write_points` call — are modelled by their outcomes, passed
in as `Except` values. -/

/-- Python `try`/`finally` composition: the `finally` suite always runs, and
if it raises, its exception replaces the pending return value or exception
(the original survives only as implicit exception context). -/
def runFinally (outcome : Except PyExc Bool) (fin : Except PyExc Unit) :
    Except PyExc Bool :=
  match fin with
  | .error e => .error e
  | .ok _ => outcome

/-- `del client`: deleting a bound local name succeeds; deleting a local
that was never assigned raises `UnboundLocalError`. -/
def delLocal (client_bound : Bool) : Except PyExc Unit :=
  if client_bound then .ok () else .error .unboundLocalError

/-- `InfluxDbOps.influxdb_write` (`influxdb_utilities.py` lines 88-135).
`connect` is the outcome of `self.influxdb_connect()` and `write_points`
the outcome of `client.write_points(...)`.  On either exception the bare
`except` logs and re-raises; the `finally` suite then executes `del client`
— with `client` still unbound when `influxdb_connect` itself raised.  On a
normal path `status is True` selects the returned boolean. -/
def influxdb_write (connect : Except PyExc Unit) (write_points : Except PyExc Bool) :
    Except PyExc Bool :=
  match connect with
  | .error e => runFinally (.error e) (delLocal false)
  | .ok _ =>
    match write_points with
    | .error e => runFinally (.error e) (delLocal true)
    | .ok status => runFinally (.ok (if status = true then true else false)) (delLocal true)

end InfluxDbOps

/-! ## Claim theorems -/

/-- **C7** — For every input value, `cast` never fails and always returns a
value, attempting casts in the order integer, then float, then string: a
string parseable as an integer returns that exact integer, otherwise a
string parseable as a float returns that float, and any other string is
returned unchanged. -/
theorem cast_order_and_fallback (value : String) :
    (∀ n : Int, SnmpQuery.pyIntOfString value = some n →
      SnmpQuery.cast value = .int n) ∧
    (SnmpQuery.pyIntOfString value = none →
      ∀ f : PyFloat, SnmpQuery.pyFloatOfString value = some f →
        SnmpQuery.cast value = .float f) ∧
    (SnmpQuery.pyIntOfString value = none → SnmpQuery.pyFloatOfString value = none →
      SnmpQuery.cast value = .str value) := by
  unfold SnmpQuery.cast
  refine ⟨?_, ?_, ?_⟩
  · intro n hn
    rw [hn]
  · intro hi f hf
    rw [hi, hf]
  · intro hi hf
    rw [hi, hf]

/-- Evaluation of the float parser at `"4.5"`; Rat arithmetic is not
kernel-reducible, so the numeric value is settled by `norm_num` after the
structural part of the parse reduces definitionally. -/
theorem pyFloatOfString_forty_five :
    SnmpQuery.pyFloatOfString "4.5" = some (.finite (9 / 2 : Rat)) := by
  have h : SnmpQuery.pyFloatOfString "4.5"
      = some (.finite ((SnmpQuery.digitsToNat ['4', '5'] : Rat)
          * SnmpQuery.pow10 (-1))) := rfl
  have h2 : SnmpQuery.digitsToNat ['4', '5'] = 45 := rfl
  have h3 : SnmpQuery.pow10 (-1) = 1 / (10 : Rat) ^ 1 := rfl
  rw [h, h2, h3]
  norm_num

/-- Witness for **C7** at concrete inputs: an integer-looking string, a
float-looking string and a plain status string. -/
theorem cast_order_and_fallback_witness :
    SnmpQuery.cast "42" = .int 42 ∧
    SnmpQuery.cast "4.5" = .float (.finite (9 / 2 : Rat)) ∧
    SnmpQuery.cast "ONLINE" = .str "ONLINE" :=
  ⟨(cast_order_and_fallback "42").1 42 (by decide),
   (cast_order_and_fallback "4.5").2.1 (by decide) _ pyFloatOfString_forty_five,
   (cast_order_and_fallback "ONLINE").2.2 (by decide) (by decide)⟩

/-- **C2** — The claim says `get_brief_name` fails with a `FormatError`
(a `ValueError`) whenever the input lacks `::` or a following `.`.  The
code instead calls `.group()` on the `None` returned by a failed
`re.search`, raising `AttributeError`; the guarded `raise ValueError` is
unreachable.  On well-formed `MIB::attr.idx` input the brief name is
returned as claimed. -/
theorem get_brief_name_failure_is_attribute_error :
    SnmpQuery.get_brief_name "READYNASOS-MIB::ataError.3" = .ok "ataError" ∧
    SnmpQuery.get_brief_name "MIB" = .error .attributeError ∧
    SnmpQuery.get_brief_name "SNMPv2-MIB::sysName" = .error .attributeError ∧
    (∀ s : String, SnmpQuery.get_brief_name s ≠ .error .valueError) := by
  refine ⟨by decide, by decide, by decide, ?_⟩
  intro s
  unfold SnmpQuery.get_brief_name
  cases hac : SnmpQuery.afterColons s.data with
  | none => simp
  | some rest =>
    by_cases hd : rest.any (fun c => c = '.')
    · simp [hd, SnmpQuery.group_is_str]
    · simp [hd]

/-- **C6** — If any iteration step of a walk reports an error indication or
a non-zero error status, `fetch` raises the SNMP `RuntimeError`; rows
accumulated from earlier successful steps are discarded, never returned. -/
theorem fetch_error_aborts (steps : List SnmpQuery.SnmpStep)
    (h : ∃ step ∈ steps, step.error_indication = true ∨ step.error_status ≠ 0) :
    SnmpQuery.fetch steps = .error .runtimeError := by
  induction steps with
  | nil => rcases h with ⟨s, hs, _⟩; cases hs
  | cons s0 rest ih =>
    rcases h with ⟨s, hs, hbad⟩
    rcases List.mem_cons.mp hs with heq | hmem
    · subst heq
      unfold SnmpQuery.fetch
      have hne : ¬ (s.error_indication = false ∧ s.error_status = 0) := by
        rcases hbad with h1 | h2
        · rintro ⟨ha, _⟩; rw [h1] at ha; cases ha
        · rintro ⟨_, hb⟩; exact h2 hb
      rw [if_neg hne]
    · unfold SnmpQuery.fetch
      by_cases hok : s0.error_indication = false ∧ s0.error_status = 0
      · rw [if_pos hok, ih ⟨s, hmem, hbad⟩]
      · rw [if_neg hok]

/-- Witness for **C6**: a walk whose first step succeeds with one binding
and whose second step carries an error indication returns no rows at all. -/
theorem fetch_error_aborts_witness :
    SnmpQuery.fetch
      [⟨false, 0, [("SNMPv2-MIB::sysName.0", "bigbang")]⟩, ⟨true, 0, []⟩]
      = .error .runtimeError :=
  fetch_error_aborts _ ⟨⟨true, 0, []⟩, by decide, Or.inl rfl⟩

/-- **C9** — The parts of the claim the code satisfies: `influxdb_write`
returns the client's boolean outcome, and a client exception raised after
the connection was established is re-raised (the release of the handle then
succeeds).  But when acquiring the connection itself fails, the `finally`
suite executes `del client` with `client` unbound, so the invocation raises
`UnboundLocalError` instead of the original exception — the claimed
"released unconditionally, including when acquiring the connection fails"
path is broken. -/
theorem influxdb_write_outcomes :
    (∀ status : Bool,
      InfluxDbOps.influxdb_write (.ok ()) (.ok status) = .ok status) ∧
    (∀ e : PyExc, InfluxDbOps.influxdb_write (.ok ()) (.error e) = .error e) ∧
    (∀ (e : PyExc) (w : Except PyExc Bool),
      InfluxDbOps.influxdb_write (.error e) w = .error .unboundLocalError) := by
  refine ⟨?_, ?_, ?_⟩
  · intro status; cases status <;> rfl
  · intro e; rfl
  · intro e w; rfl

/-- **C10** — In the JSON-emitting variant the disk normalizer iterates the
walk result directly while fan / temperature / volume call `.values()` on
it.  On a plain list of row dictionaries — the shape the disk normalizer
succeeds on — each of the other three fails with `AttributeError` before
emitting anything; and no walk-result shape holding more than one distinct
row lets all four normalizers process rows correctly. -/
theorem walk_shape_mismatch (sysName : Scalar) :
    (∀ rows : List Row,
      GetReadyNasStats.process_readynas_fan_table sysName (.pylist rows)
          = .error .attributeError ∧
      GetReadyNasStats.process_readynas_temperature_table sysName (.pylist rows)
          = .error .attributeError ∧
      GetReadyNasStats.process_readynas_volume_table sysName (.pylist rows)
          = .error .attributeError) ∧
    (∀ (w : GetReadyNasStats.WalkResult) (n1 n2 n3 n4 : Scalar),
      (∃ r1 ∈ GetReadyNasStats.walkRows w, ∃ r2 ∈ GetReadyNasStats.walkRows w, r1 ≠ r2) →
      ¬ ((∃ rs, GetReadyNasStats.process_readynas_disk_table n1 w = .ok rs) ∧
         (∃ rs, GetReadyNasStats.process_readynas_fan_table n2 w = .ok rs) ∧
         (∃ rs, GetReadyNasStats.process_readynas_temperature_table n3 w = .ok rs) ∧
         (∃ rs, GetReadyNasStats.process_readynas_volume_table n4 w = .ok rs))) := by
  constructor
  · intro rows
    exact ⟨rfl, rfl, rfl⟩
  · intro w n1 n2 n3 n4 hdistinct hall
    cases w with
    | pylist rows =>
      rcases hall.2.1 with ⟨rs, hrs⟩
      have : (Except.error PyExc.attributeError : Except PyExc (List Row)) = .ok rs := hrs
      cases this
    | pydict entries =>
      cases entries with
      | nil =>
        rcases hdistinct with ⟨r1, hr1, _⟩
        simp [GetReadyNasStats.walkRows] at hr1
      | cons e es =>
        rcases hall.1 with ⟨rs, hrs⟩
        have : (Except.error PyExc.attributeError : Except PyExc (List Row)) = .ok rs := by
          rw [← hrs]
          rfl
        cases this

/-- Witness for **C10**: a two-row list walk result breaks the fan
normalizer, and no shape carrying those two distinct rows satisfies all
four normalizers at once. -/
theorem walk_shape_mismatch_witness :
    GetReadyNasStats.process_readynas_fan_table (.str "nas")
        (.pylist [[("fanNumber", .int 1)], [("fanNumber", .int 2)]])
        = .error .attributeError ∧
    ¬ ((∃ rs, GetReadyNasStats.process_readynas_disk_table (.str "nas")
          (.pylist [[("fanNumber", .int 1)], [("fanNumber", .int 2)]]) = .ok rs) ∧
       (∃ rs, GetReadyNasStats.process_readynas_fan_table (.str "nas")
          (.pylist [[("fanNumber", .int 1)], [("fanNumber", .int 2)]]) = .ok rs) ∧
       (∃ rs, GetReadyNasStats.process_readynas_temperature_table (.str "nas")
          (.pylist [[("fanNumber", .int 1)], [("fanNumber", .int 2)]]) = .ok rs) ∧
       (∃ rs, GetReadyNasStats.process_readynas_volume_table (.str "nas")
          (.pylist [[("fanNumber", .int 1)], [("fanNumber", .int 2)]]) = .ok rs)) :=
  ⟨((walk_shape_mismatch (.str "nas")).1 _).1,
   (walk_shape_mismatch (.str "nas")).2 _ (.str "nas") (.str "nas") (.str "nas") (.str "nas")
     ⟨[("fanNumber", .int 1)], by decide, [("fanNumber", .int 2)], by decide, by decide⟩⟩

/-! ## Association-list and loop lemmas shared by the remaining claims -/

theorem dictGet_mem {α : Type} (l : List (String × α)) (k : String) (v : α)
    (h : dictGet l k = some v) : (k, v) ∈ l := by
  induction l with
  | nil => cases h
  | cons p rest ih =>
    obtain ⟨k0, v0⟩ := p
    by_cases hk : k0 = k
    · subst hk
      rw [dictGet, if_pos rfl] at h
      cases h
      exact List.mem_cons_self _ _
    · rw [dictGet, if_neg hk] at h
      exact List.mem_cons_of_mem _ (ih h)

theorem mem_dictGet {α : Type} (l : List (String × α))
    (hnodup : (l.map Prod.fst).Nodup) (k : String) (v : α)
    (h : (k, v) ∈ l) : dictGet l k = some v := by
  induction l with
  | nil => cases h
  | cons p rest ih =>
    obtain ⟨k0, v0⟩ := p
    rw [List.map_cons, List.nodup_cons] at hnodup
    rcases List.mem_cons.mp h with heq | hmem
    · cases heq
      rw [dictGet, if_pos rfl]
    · have hk : ¬ k0 = k := by
        intro he
        subst he
        exact hnodup.1 (List.mem_map.mpr ⟨(k0, v), hmem, rfl⟩)
      rw [dictGet, if_neg hk]
      exact ih hnodup.2 hmem

theorem mem_unique_of_nodup_keys {α : Type} (l : List (String × α))
    (hnodup : (l.map Prod.fst).Nodup) (k : String) (v v' : α)
    (h1 : (k, v) ∈ l) (h2 : (k, v') ∈ l) : v = v' := by
  have e1 := mem_dictGet l hnodup k v h1
  have e2 := mem_dictGet l hnodup k v' h2
  rw [e1] at e2
  cases e2
  rfl

/-- The dictionary observation at a fixed key, folded over a row whose
update map only fires on `key`, is the code of the row's value at `key`
(provided the row's keys do not repeat). -/
theorem foldl_updOf_keyed {A : Type} (code : Scalar → Option A) (key : String)
    (l : List (String × Scalar)) (hnodup : (l.map Prod.fst).Nodup) :
    l.foldl (updOf (fun kv => if kv.1 = key then code kv.2 else none)) none
      = (dictGet l key).bind code := by
  cases hv : dictGet l key with
  | none =>
    rw [Option.bind]
    apply foldl_updOf_none
    rintro ⟨k, v⟩ hkv
    by_cases hk : k = key
    · subst hk
      rw [mem_dictGet l hnodup k v hkv] at hv
      cases hv
    · simp [hk]
  | some v =>
    cases hc : code v with
    | some c =>
      rw [Option.bind, hc]
      apply foldl_updOf_unique _ _ (key, v) c (dictGet_mem l key v hv) (by simp [hc])
      rintro ⟨k, v'⟩ hkv hne
      by_cases hk : k = key
      · subst hk
        have : v' = v := by
          have := mem_dictGet l hnodup k v' hkv
          rw [hv] at this
          cases this
          rfl
        rw [this]
      · simp [hk] at hne
    | none =>
      rw [Option.bind, hc]
      apply foldl_updOf_none
      rintro ⟨k, v'⟩ hkv
      by_cases hk : k = key
      · subst hk
        have : v' = v := by
          have := mem_dictGet l hnodup k v' hkv
          rw [hv] at this
          cases this
          rfl
        simp [this, hc]
      · simp [hk]

theorem foldl_const {A B : Type} (l : List B) (a : A) :
    l.foldl (fun acc _ => acc) a = a := by
  induction l with
  | nil => rfl
  | cons b rest ih => rw [List.foldl_cons]; exact ih

/-- If every step of the loop can only fail with `E`, a failing run fails
with `E`. -/
theorem processFields_error_uniform {σ : Type}
    (step : σ → String × Scalar → Except PyExc σ) (E : PyExc)
    (hstep : ∀ s kv e, step s kv = .error e → e = E) :
    ∀ (l : List (String × Scalar)) (s : σ) (e : PyExc),
      processFields step l s = .error e → e = E := by
  intro l
  induction l with
  | nil => intro s e h; cases h
  | cons kv rest ih =>
    intro s e h
    simp only [processFields] at h
    cases hs : step s kv with
    | error e0 =>
      rw [hs] at h
      injection h with he
      exact he ▸ hstep s kv e0 hs
    | ok s1 =>
      rw [hs] at h
      exact ih s1 e h

theorem emitRows_ok_mem (f : GetReadyNasStats.PyVal → Except PyExc Row)
    (l : List GetReadyNasStats.PyVal) (rs : List Row)
    (h : GetReadyNasStats.emitRows f l = .ok rs) :
    ∀ pv ∈ l, ∃ r, f pv = .ok r := by
  induction l generalizing rs with
  | nil => intro pv hpv; cases hpv
  | cons pv0 rest ih =>
    intro pv hpv
    simp only [GetReadyNasStats.emitRows] at h
    cases hf : f pv0 with
    | error e => rw [hf] at h; cases h
    | ok r0 =>
      rw [hf] at h
      cases hr : GetReadyNasStats.emitRows f rest with
      | error e => rw [hr] at h; cases h
      | ok rs0 =>
        rw [hr] at h
        rcases List.mem_cons.mp hpv with heq | hmem
        · exact heq ▸ ⟨r0, hf⟩
        · exact ih rs0 hr pv hmem

/-- A row loop in which at least one entry fails — and in which every
failure carries the fixed exception `E` — aborts with `E` and emits
nothing. -/
theorem emitRows_error_uniform (f : GetReadyNasStats.PyVal → Except PyExc Row)
    (E : PyExc) (l : List GetReadyNasStats.PyVal)
    (huni : ∀ pv ∈ l, ∀ e, f pv = .error e → e = E)
    (hex : ∃ pv ∈ l, ∃ e, f pv = .error e) :
    GetReadyNasStats.emitRows f l = .error E := by
  induction l with
  | nil => rcases hex with ⟨pv, hpv, _⟩; cases hpv
  | cons pv0 rest ih =>
    simp only [GetReadyNasStats.emitRows]
    cases hf : f pv0 with
    | error e =>
      rw [huni pv0 (List.mem_cons_self _ _) e hf]
    | ok r0 =>
      have hex' : ∃ pv ∈ rest, ∃ e, f pv = .error e := by
        rcases hex with ⟨pv, hpv, e, he⟩
        rcases List.mem_cons.mp hpv with heq | hmem
        · subst heq; rw [hf] at he; cases he
        · exact ⟨pv, hmem, e, he⟩
      rw [ih (fun pv hpv => huni pv (List.mem_cons_of_mem _ hpv)) hex']

/-! ## C8 — the disk status mapping -/

/-- The code the `diskState` arm assigns: `0` for `'ONLINE'`, `1` for
anything else (total and binary). -/
def diskStatusCode (v : Scalar) : Option Scalar :=
  some (if v = .str "ONLINE" then .int 0 else .int 1)

theorem disk_step_status (s : Row) (kv : String × Scalar) (s1 : Row)
    (h : GetReadyNasStats.disk_step s kv = .ok s1) :
    dictGet s1 "disk_status"
      = updOf (fun kv => if kv.1 = "diskState" then diskStatusCode kv.2 else none)
          (dictGet s "disk_status") kv := by
  obtain ⟨k, v⟩ := kv
  simp only [GetReadyNasStats.disk_step] at h
  by_cases h1 : k = "diskNumber"
  · subst h1
    rw [if_pos rfl] at h
    injection h with hs
    subst hs
    simp [updOf, dictGet_dictSet]
  · rw [if_neg h1] at h
    by_cases h2 : k = "ataError"
    · subst h2
      rw [if_pos rfl] at h
      injection h with hs
      subst hs
      simp [updOf, dictGet_dictSet]
    · rw [if_neg h2] at h
      by_cases h3 : k = "diskState"
      · subst h3
        rw [if_pos rfl] at h
        injection h with hs
        subst hs
        simp [updOf, diskStatusCode, dictGet_dictSet]
      · rw [if_neg h3] at h
        by_cases h4 : k = "diskTemperature"
        · subst h4
          rw [if_pos rfl] at h
          injection h with hs
          subst hs
          simp [updOf, dictGet_dictSet]
        · rw [if_neg h4] at h
          cases h

/-- The `disk_status` entry of a successfully normalized class-variant disk
record is the `diskState` code of the raw row. -/
theorem process_disk_row_status (sysName : Scalar) (row : Row) (r : Row)
    (hnodup : (row.map Prod.fst).Nodup)
    (hok : GetReadyNasStats.process_disk_row sysName row = .ok r) :
    dictGet r "disk_status" = (dictGet row "diskState").bind diskStatusCode := by
  have ht := processFields_track GetReadyNasStats.disk_step
      (fun fields => dictGet fields "disk_status")
      (updOf (fun kv => if kv.1 = "diskState" then diskStatusCode kv.2 else none))
      disk_step_status row _ r hok
  dsimp only at ht
  have hinit : dictGet (dictSet ([] : Row) "host" sysName) "disk_status" = none := by
    simp [dictGet_dictSet, dictGet]
  rw [hinit] at ht
  rw [ht, foldl_updOf_keyed diskStatusCode "diskState" row hnodup]

theorem gather_disk_step_status (s : Row × Row) (kv : String × Scalar) (s1 : Row × Row)
    (h : Gather.disk_step s kv = .ok s1) :
    dictGet s1.2 "disk_status"
      = updOf (fun kv =>
          if SnmpQuery.get_brief_name kv.1 = .ok "diskState" then diskStatusCode kv.2
          else none)
          (dictGet s.2 "disk_status") kv := by
  obtain ⟨tags, fields⟩ := s
  obtain ⟨k, v⟩ := kv
  simp only [Gather.disk_step] at h
  cases hb : SnmpQuery.get_brief_name k with
  | error e => rw [hb] at h; cases h
  | ok brief =>
    rw [hb] at h
    dsimp only at h
    by_cases h1 : brief = "diskNumber"
    · subst h1
      rw [if_pos rfl] at h
      injection h with hs
      subst hs
      simp [updOf, hb]
    · rw [if_neg h1] at h
      by_cases h2 : brief = "ataError"
      · subst h2
        rw [if_pos rfl] at h
        injection h with hs
        subst hs
        simp [updOf, hb, dictGet_dictSet]
      · rw [if_neg h2] at h
        by_cases h3 : brief = "diskState"
        · subst h3
          rw [if_pos rfl] at h
          injection h with hs
          subst hs
          simp [updOf, hb, diskStatusCode, dictGet_dictSet]
        · rw [if_neg h3] at h
          by_cases h4 : brief = "diskTemperature"
          · subst h4
            rw [if_pos rfl] at h
            injection h with hs
            subst hs
            simp [updOf, hb, dictGet_dictSet, h3]
          · rw [if_neg h4] at h
            cases h

/-- The `disk_status` entry of a successfully processed gather disk point is
the fold of the `diskState` updates over the raw row. -/
theorem gather_process_disk_row_status (hn : Scalar) (grow : Row) (pt : Gather.Point)
    (hok : Gather.process_disk_row hn grow = .ok pt) :
    dictGet pt.fields "disk_status"
      = grow.foldl (updOf (fun kv =>
          if SnmpQuery.get_brief_name kv.1 = .ok "diskState" then diskStatusCode kv.2
          else none)) none := by
  unfold Gather.process_disk_row at hok
  cases hpf : processFields Gather.disk_step grow (dictSet [] "host" hn, []) with
  | error e => rw [hpf] at hok; cases hok
  | ok s1 =>
    rw [hpf] at hok
    obtain ⟨tags, fields⟩ := s1
    injection hok with hpt
    subst hpt
    have ht := processFields_track Gather.disk_step (fun s => dictGet s.2 "disk_status")
        (updOf (fun kv =>
          if SnmpQuery.get_brief_name kv.1 = .ok "diskState" then diskStatusCode kv.2
          else none))
        gather_disk_step_status grow _ _ hpf
    dsimp only at ht
    simpa [dictGet] using ht

/-- **C8** — The disk status mapping is total and binary over all possible
`diskState` values: `disk_status` is `0` exactly when the raw `diskState`
value is the string `ONLINE`, and `1` for every other value — in the class
variant (first conjunct, for rows with non-repeating keys) and in the gather
variant (second conjunct, for the row entry whose key resolves to
`diskState`). -/
theorem disk_status_total_binary :
    (∀ (sysName : Scalar) (row : Row) (r : Row),
      (row.map Prod.fst).Nodup →
      GetReadyNasStats.process_disk_row sysName row = .ok r →
      ((dictGet r "disk_status" = some (.int 0) ↔
          dictGet row "diskState" = some (.str "ONLINE")) ∧
       (∀ v, dictGet row "diskState" = some v → v ≠ .str "ONLINE" →
          dictGet r "disk_status" = some (.int 1)))) ∧
    (∀ (hn : Scalar) (grow : Row) (pt : Gather.Point),
      Gather.process_disk_row hn grow = .ok pt →
      ∀ (k : String) (v : Scalar), (k, v) ∈ grow →
        SnmpQuery.get_brief_name k = .ok "diskState" →
        (∀ kv' ∈ grow, SnmpQuery.get_brief_name kv'.1 = .ok "diskState" → kv' = (k, v)) →
        dictGet pt.fields "disk_status"
          = some (if v = .str "ONLINE" then .int 0 else .int 1)) := by
  constructor
  · intro sysName row r hnodup hok
    have heq := process_disk_row_status sysName row r hnodup hok
    cases hds : dictGet row "diskState" with
    | none =>
      rw [hds] at heq
      simp only [Option.none_bind] at heq
      refine ⟨⟨fun h0 => ?_, fun h0 => ?_⟩, fun v hv _ => ?_⟩
      · rw [heq] at h0; cases h0
      · cases h0
      · cases hv
    | some v =>
      rw [hds] at heq
      simp only [Option.some_bind, diskStatusCode] at heq
      refine ⟨⟨fun h0 => ?_, fun h0 => ?_⟩, fun v' hv' hne => ?_⟩
      · rw [heq] at h0
        injection h0 with h0v
        by_cases hv : v = .str "ONLINE"
        · rw [hv]
        · rw [if_neg hv] at h0v
          exact absurd h0v (by decide)
      · injection h0 with h0v
        rw [heq, h0v, if_pos rfl]
      · injection hv' with hvv
        subst hvv
        rw [heq, if_neg hne]
  · intro hn grow pt hok k v hmem hbk huniq
    have heq := gather_process_disk_row_status hn grow pt hok
    rw [heq]
    apply foldl_updOf_unique _ _ (k, v) _ hmem (by simp [hbk, diskStatusCode])
    rintro ⟨k', v'⟩ hkv' hne
    by_cases hb : SnmpQuery.get_brief_name k' = .ok "diskState"
    · exact huniq (k', v') hkv' hb
    · simp [hb] at hne

/-- Witness for **C8**: a concrete `ONLINE` row in the class variant maps to
status `0`, and a concrete `OFFLINE` row in the gather variant maps to
status `1`. -/
theorem disk_status_total_binary_witness :
    dictGet [("host", Scalar.str "bigbang"), ("disk_number", Scalar.int 1),
        ("ata_error_count", Scalar.int 3), ("disk_status", Scalar.int 0),
        ("disk_temperature", Scalar.int 34)] "disk_status" = some (.int 0) ∧
    dictGet (Gather.Point.mk "snmp_disk_stats"
        [("host", Scalar.str "bigbang"), ("disk_number", Scalar.int 2)]
        [("disk_status", Scalar.int 1)]).fields "disk_status" = some (.int 1) :=
  ⟨(disk_status_total_binary.1 (.str "bigbang")
      [("diskNumber", .int 1), ("ataError", .int 3), ("diskState", .str "ONLINE"),
        ("diskTemperature", .int 34)]
      [("host", Scalar.str "bigbang"), ("disk_number", Scalar.int 1),
        ("ata_error_count", Scalar.int 3), ("disk_status", Scalar.int 0),
        ("disk_temperature", Scalar.int 34)]
      (by decide) (by decide)).1.mpr (by decide),
   (disk_status_total_binary.2 (.str "bigbang")
      [("READYNASOS-MIB::diskNumber.1", .int 2), ("READYNASOS-MIB::diskState.1", .str "OFFLINE")]
      (Gather.Point.mk "snmp_disk_stats"
        [("host", Scalar.str "bigbang"), ("disk_number", Scalar.int 2)]
        [("disk_status", Scalar.int 1)])
      (by decide) "READYNASOS-MIB::diskState.1" (.str "OFFLINE")
      (by decide) (by decide) (by decide)).trans (by decide)⟩

/-! ## Volume table — status and used-space characterizations (C1, C4) -/

/-- The known field identifiers of the volume table (class variant). -/
def volumeKnownFields : List String :=
  ["volumeNumber", "volumeRAIDLevel", "volumeStatus", "volumeSize", "volumeFreeSpace"]

/-- The partial code map implemented by the class-variant `volumeStatus`
chain: the six exact matches give the consecutive codes `0`-`5`, in the
order `REDUNDANT`, `DEGRADED`, `UNPROTECTED`, `DEAD`, `INACTIVE`,
`UNKNOWN`; everything else maps to nothing. -/
def classVolumeStatusCode (v : Scalar) : Option Scalar :=
  if v = .str "REDUNDANT" then some (.int 0)
  else if v = .str "DEGRADED" then some (.int 1)
  else if v = .str "UNPROTECTED" then some (.int 2)
  else if v = .str "DEAD" then some (.int 3)
  else if v = .str "INACTIVE" then some (.int 4)
  else if v = .str "UNKNOWN" then some (.int 5)
  else none

/-- The partial code map implemented by the gather-variant `volumeStatus`
chain: the same six strings in the same order, numbered `1`-`6`. -/
def gatherVolumeStatusCode (v : Scalar) : Option Scalar :=
  if v = .str "REDUNDANT" then some (.int 1)
  else if v = .str "DEGRADED" then some (.int 2)
  else if v = .str "UNPROTECTED" then some (.int 3)
  else if v = .str "DEAD" then some (.int 4)
  else if v = .str "INACTIVE" then some (.int 5)
  else if v = .str "UNKNOWN" then some (.int 6)
  else none

theorem volumeStatusFields_get (fields : Row) (v : Scalar) (k' : String) :
    dictGet (GetReadyNasStats.volumeStatusFields fields v) k'
      = if k' = "volume_status" then
          (match classVolumeStatusCode v with
           | some c => some c
           | none => dictGet fields k')
        else dictGet fields k' := by
  unfold GetReadyNasStats.volumeStatusFields classVolumeStatusCode
  split_ifs with h1 h2 h3 h4 h5 h6 <;> simp_all [dictGet_dictSet]

theorem gatherVolumeStatusFields_get (fields : Row) (v : Scalar) (k' : String) :
    dictGet (Gather.volumeStatusFields fields v) k'
      = if k' = "volume_status" then
          (match gatherVolumeStatusCode v with
           | some c => some c
           | none => dictGet fields k')
        else dictGet fields k' := by
  unfold Gather.volumeStatusFields gatherVolumeStatusCode
  split_ifs with h1 h2 h3 h4 h5 h6 <;> simp_all [dictGet_dictSet]

/-- Everything a successful step of the class-variant volume branch chain
does, observed at the keys the claims need. -/
theorem volumeBranch_spec (fields : Row) (t f : Option Scalar) (k : String) (v : Scalar)
    (res : Row × Option Scalar × Option Scalar)
    (h : GetReadyNasStats.volumeBranch fields t f k v = .ok res) :
    dictGet res.1 "volume_status"
        = updOf (fun kv => if kv.1 = "volumeStatus" then classVolumeStatusCode kv.2 else none)
            (dictGet fields "volume_status") (k, v) ∧
    dictGet res.1 "volume_used_space_mb" = dictGet fields "volume_used_space_mb" ∧
    res.2.1 = (if k = "volumeSize" then some v else t) ∧
    res.2.2 = (if k = "volumeFreeSpace" then some v else f) ∧
    dictGet res.1 "host" = dictGet fields "host" ∧
    k ∈ volumeKnownFields := by
  unfold GetReadyNasStats.volumeBranch at h
  by_cases h1 : k = "volumeNumber"
  · subst h1
    rw [if_pos rfl] at h
    injection h with hs
    subst hs
    refine ⟨by simp [updOf, dictGet_dictSet], by simp [dictGet_dictSet], by simp, by simp,
      by simp [dictGet_dictSet], by simp [volumeKnownFields]⟩
  · rw [if_neg h1] at h
    by_cases h2 : k = "volumeRAIDLevel"
    · subst h2
      rw [if_pos rfl] at h
      injection h with hs
      subst hs
      refine ⟨by simp [updOf, dictGet_dictSet], by simp [dictGet_dictSet], by simp, by simp,
        by simp [dictGet_dictSet], by simp [volumeKnownFields]⟩
    · rw [if_neg h2] at h
      by_cases h3 : k = "volumeStatus"
      · subst h3
        rw [if_pos rfl] at h
        injection h with hs
        subst hs
        refine ⟨?_, ?_, by simp, by simp, ?_, by simp [volumeKnownFields]⟩
        · rw [volumeStatusFields_get fields v "volume_status", if_pos rfl]
          simp only [updOf, if_pos rfl]
          cases classVolumeStatusCode v <;> rfl
        · rw [volumeStatusFields_get fields v "volume_used_space_mb"]
          simp
        · rw [volumeStatusFields_get fields v "host"]
          simp
      · rw [if_neg h3] at h
        by_cases h4 : k = "volumeSize"
        · subst h4
          rw [if_pos rfl] at h
          injection h with hs
          subst hs
          refine ⟨by simp [updOf, dictGet_dictSet], by simp [dictGet_dictSet], by simp, by simp,
            by simp [dictGet_dictSet], by simp [volumeKnownFields]⟩
        · rw [if_neg h4] at h
          by_cases h5 : k = "volumeFreeSpace"
          · subst h5
            rw [if_pos rfl] at h
            injection h with hs
            subst hs
            refine ⟨by simp [updOf, dictGet_dictSet], by simp [dictGet_dictSet], by simp, by simp,
              by simp [dictGet_dictSet], by simp [volumeKnownFields]⟩
          · rw [if_neg h5] at h
            cases h

/-- Everything a successful used-space check does: it writes only
`volume_used_space_mb`, and writes it exactly when both sizes have been
observed, to their (successful) difference. -/
theorem usedSpaceCheck_spec (fields : Row) (t f : Option Scalar) (fields2 : Row)
    (h : GetReadyNasStats.usedSpaceCheck fields t f = .ok fields2) :
    (∀ k', k' ≠ "volume_used_space_mb" → dictGet fields2 k' = dictGet fields k') ∧
    dictGet fields2 "volume_used_space_mb"
      = (match t, f with
         | some a, some b => (GetReadyNasStats.scalarSub a b).toOption
         | _, _ => dictGet fields "volume_used_space_mb") := by
  cases t with
  | some a =>
    cases f with
    | some b =>
      simp only [GetReadyNasStats.usedSpaceCheck] at h
      cases hsub : GetReadyNasStats.scalarSub a b with
      | error e => simp [hsub] at h
      | ok u =>
        simp [hsub] at h
        subst h
        exact ⟨fun k' hk' => dictGet_dictSet_ne _ _ _ _ hk',
          by simp [dictGet_dictSet, hsub, Except.toOption]⟩
    | none =>
      simp only [GetReadyNasStats.usedSpaceCheck] at h
      injection h with hs
      subst hs
      exact ⟨fun _ _ => rfl, rfl⟩
  | none =>
    cases f with
    | some b =>
      simp only [GetReadyNasStats.usedSpaceCheck] at h
      injection h with hs
      subst hs
      exact ⟨fun _ _ => rfl, rfl⟩
    | none =>
      simp only [GetReadyNasStats.usedSpaceCheck] at h
      injection h with hs
      subst hs
      exact ⟨fun _ _ => rfl, rfl⟩

/-- Everything a successful class-variant volume loop iteration does. -/
theorem volume_step_spec (s : Row × Option Scalar × Option Scalar) (kv : String × Scalar)
    (s1 : Row × Option Scalar × Option Scalar)
    (h : GetReadyNasStats.volume_step s kv = .ok s1) :
    dictGet s1.1 "volume_status"
        = updOf (fun kv => if kv.1 = "volumeStatus" then classVolumeStatusCode kv.2 else none)
            (dictGet s.1 "volume_status") kv ∧
    s1.2.1 = (if kv.1 = "volumeSize" then some kv.2 else s.2.1) ∧
    s1.2.2 = (if kv.1 = "volumeFreeSpace" then some kv.2 else s.2.2) ∧
    dictGet s1.1 "volume_used_space_mb"
      = (match s1.2.1, s1.2.2 with
         | some a, some b => (GetReadyNasStats.scalarSub a b).toOption
         | _, _ => dictGet s.1 "volume_used_space_mb") ∧
    dictGet s1.1 "host" = dictGet s.1 "host" ∧
    kv.1 ∈ volumeKnownFields := by
  obtain ⟨fields, t, f⟩ := s
  obtain ⟨k, v⟩ := kv
  simp only [GetReadyNasStats.volume_step] at h
  cases hbr : GetReadyNasStats.volumeBranch fields t f k v with
  | error e => rw [hbr] at h; cases h
  | ok res =>
    rw [hbr] at h
    dsimp only at h
    obtain ⟨fields1, t1, f1⟩ := res
    cases hus : GetReadyNasStats.usedSpaceCheck fields1 t1 f1 with
    | error e => rw [hus] at h; cases h
    | ok fields2 =>
      rw [hus] at h
      injection h with hs
      subst hs
      obtain ⟨hst, hused, ht1, hf1, hhost, hmem⟩ := volumeBranch_spec fields t f k v _ hbr
      obtain ⟨hother, hused2⟩ := usedSpaceCheck_spec fields1 t1 f1 _ hus
      refine ⟨?_, ht1, hf1, ?_, ?_, hmem⟩
      · rw [hother "volume_status" (by decide)]
        exact hst
      · rw [hused2]
        cases t1 <;> cases f1 <;> simp [hused]
      · rw [hother "host" (by decide)]
        exact hhost

/-- The `volume_status` entry of a successfully normalized class-variant
volume record is the status code of the raw `volumeStatus` value. -/
theorem process_volume_row_status (sysName : Scalar) (row : Row) (r : Row)
    (hnodup : (row.map Prod.fst).Nodup)
    (hok : GetReadyNasStats.process_volume_row sysName row = .ok r) :
    dictGet r "volume_status" = (dictGet row "volumeStatus").bind classVolumeStatusCode := by
  unfold GetReadyNasStats.process_volume_row at hok
  cases hpf : processFields GetReadyNasStats.volume_step row
      (dictSet [] "host" sysName, none, none) with
  | error e => rw [hpf] at hok; cases hok
  | ok s1 =>
    rw [hpf] at hok
    obtain ⟨fields, t, f⟩ := s1
    injection hok with hr
    subst hr
    have ht := processFields_track GetReadyNasStats.volume_step
        (fun s => dictGet s.1 "volume_status")
        (updOf (fun kv => if kv.1 = "volumeStatus" then classVolumeStatusCode kv.2 else none))
        (fun s kv s1 h => (volume_step_spec s kv s1 h).1) row _ _ hpf
    dsimp only at ht
    rw [show dictGet (dictSet ([] : Row) "host" sysName) "volume_status" = none by
      simp [dictGet_dictSet, dictGet]] at ht
    rw [ht, foldl_updOf_keyed classVolumeStatusCode "volumeStatus" row hnodup]

/-- The pure evolution of the triple (used-space entry, `total_space`,
`free_space`) along one volume loop iteration. -/
def volumeUsedTrack (a : Option Scalar × Option Scalar × Option Scalar)
    (kv : String × Scalar) : Option Scalar × Option Scalar × Option Scalar :=
  let t1 := if kv.1 = "volumeSize" then some kv.2 else a.2.1
  let f1 := if kv.1 = "volumeFreeSpace" then some kv.2 else a.2.2
  ((match t1, f1 with
    | some x, some y => (GetReadyNasStats.scalarSub x y).toOption
    | _, _ => a.1), t1, f1)

theorem volume_step_usedTrack (s : Row × Option Scalar × Option Scalar)
    (kv : String × Scalar) (s1 : Row × Option Scalar × Option Scalar)
    (h : GetReadyNasStats.volume_step s kv = .ok s1) :
    (dictGet s1.1 "volume_used_space_mb", s1.2.1, s1.2.2)
      = volumeUsedTrack (dictGet s.1 "volume_used_space_mb", s.2.1, s.2.2) kv := by
  obtain ⟨hst, ht1, hf1, hused, hhost, hmem⟩ := volume_step_spec s kv s1 h
  unfold volumeUsedTrack
  dsimp only
  rw [← ht1, ← hf1, hused]

theorem foldl_volumeUsedTrack_components (l : List (String × Scalar)) :
    ∀ a : Option Scalar × Option Scalar × Option Scalar,
    (l.foldl volumeUsedTrack a).2.1
        = l.foldl (updOf (fun kv => if kv.1 = "volumeSize" then some kv.2 else none)) a.2.1 ∧
    (l.foldl volumeUsedTrack a).2.2
        = l.foldl (updOf (fun kv => if kv.1 = "volumeFreeSpace" then some kv.2 else none))
            a.2.2 := by
  induction l with
  | nil => intro a; exact ⟨rfl, rfl⟩
  | cons kv rest ih =>
    intro a
    simp only [List.foldl_cons]
    refine ⟨?_, ?_⟩
    · rw [(ih _).1]
      congr 1
      unfold volumeUsedTrack updOf
      dsimp only
      by_cases hk : kv.1 = "volumeSize" <;> simp [hk]
    · rw [(ih _).2]
      congr 1
      unfold volumeUsedTrack updOf
      dsimp only
      by_cases hk : kv.1 = "volumeFreeSpace" <;> simp [hk]

/-- The invariant tying the used-space entry to the `total_space` /
`free_space` locals: whenever both locals are set the entry holds their
difference, and while either is unset the entry is absent. -/
def usedGood (a : Option Scalar × Option Scalar × Option Scalar) : Prop :=
  (∀ x y, a.2.1 = some x → a.2.2 = some y →
      a.1 = (GetReadyNasStats.scalarSub x y).toOption) ∧
  ((a.2.1 = none ∨ a.2.2 = none) → a.1 = none)

theorem usedGood_step (a : Option Scalar × Option Scalar × Option Scalar)
    (kv : String × Scalar) (h : usedGood a) : usedGood (volumeUsedTrack a kv) := by
  obtain ⟨u, t, f⟩ := a
  obtain ⟨h1, h2⟩ := h
  simp only [usedGood, volumeUsedTrack] at *
  by_cases hk1 : kv.1 = "volumeSize" <;> by_cases hk2 : kv.1 = "volumeFreeSpace" <;>
    cases t <;> cases f <;> simp_all

theorem usedGood_foldl (l : List (String × Scalar))
    (a : Option Scalar × Option Scalar × Option Scalar) (h : usedGood a) :
    usedGood (l.foldl volumeUsedTrack a) := by
  induction l generalizing a with
  | nil => exact h
  | cons kv rest ih => rw [List.foldl_cons]; exact ih _ (usedGood_step a kv h)

theorem option_bind_some {α : Type} (o : Option α) : o.bind some = o := by
  cases o <;> rfl

/-- The used-space entry of a successfully normalized class-variant volume
record: the difference of the raw sizes when both are present, absent
otherwise. -/
theorem process_volume_row_used (sysName : Scalar) (row : Row) (r : Row)
    (hnodup : (row.map Prod.fst).Nodup)
    (hok : GetReadyNasStats.process_volume_row sysName row = .ok r) :
    dictGet r "volume_used_space_mb"
      = (match dictGet row "volumeSize", dictGet row "volumeFreeSpace" with
         | some a, some b => (GetReadyNasStats.scalarSub a b).toOption
         | _, _ => none) := by
  unfold GetReadyNasStats.process_volume_row at hok
  cases hpf : processFields GetReadyNasStats.volume_step row
      (dictSet [] "host" sysName, none, none) with
  | error e => rw [hpf] at hok; cases hok
  | ok s1 =>
    rw [hpf] at hok
    obtain ⟨fields, t, f⟩ := s1
    injection hok with hr
    subst hr
    have ht := processFields_track GetReadyNasStats.volume_step
        (fun s => (dictGet s.1 "volume_used_space_mb", s.2.1, s.2.2)) volumeUsedTrack
        volume_step_usedTrack row _ _ hpf
    dsimp only at ht
    rw [show dictGet (dictSet ([] : Row) "host" sysName) "volume_used_space_mb" = none by
      simp [dictGet_dictSet, dictGet]] at ht
    have hcomp := foldl_volumeUsedTrack_components row ((none, none, none) :
      Option Scalar × Option Scalar × Option Scalar)
    have hgood := usedGood_foldl row (none, none, none)
      ⟨(fun x y hx _ => by cases hx), (fun _ => rfl)⟩
    have htv : t = dictGet row "volumeSize" := by
      have e1 : t = (row.foldl volumeUsedTrack (none, none, none)).2.1 :=
        congrArg (fun p => p.2.1) ht
      rw [e1, hcomp.1, foldl_updOf_keyed some "volumeSize" row hnodup,
        option_bind_some]
    have hfv : f = dictGet row "volumeFreeSpace" := by
      have e1 : f = (row.foldl volumeUsedTrack (none, none, none)).2.2 :=
        congrArg (fun p => p.2.2) ht
      rw [e1, hcomp.2, foldl_updOf_keyed some "volumeFreeSpace" row hnodup,
        option_bind_some]
    have hu : dictGet fields "volume_used_space_mb"
        = (row.foldl volumeUsedTrack (none, none, none)).1 :=
      congrArg (fun p => p.1) ht
    have hgt : (row.foldl volumeUsedTrack (none, none, none)).2.1 = t :=
      (congrArg (fun p => p.2.1) ht).symm
    have hgf : (row.foldl volumeUsedTrack (none, none, none)).2.2 = f :=
      (congrArg (fun p => p.2.2) ht).symm
    cases hts : dictGet row "volumeSize" with
    | none =>
      rw [hu, hgood.2 (Or.inl (by rw [hgt, htv, hts]))]
    | some a =>
      cases hfs : dictGet row "volumeFreeSpace" with
      | none =>
        rw [hu, hgood.2 (Or.inr (by rw [hgf, hfv, hfs]))]
      | some b =>
        rw [hu, hgood.1 a b (by rw [hgt, htv, hts]) (by rw [hgf, hfv, hfs])]

/-- `total_space` / `free_space` hold either nothing or an integer — the
invariant under which the used-space subtraction cannot raise. -/
def intOpt (o : Option Scalar) : Prop :=
  o = none ∨ ∃ n : Int, o = some (.int n)

theorem usedSpaceCheck_ok (fields : Row) (t f : Option Scalar)
    (ht : intOpt t) (hf : intOpt f) :
    ∃ fields2, GetReadyNasStats.usedSpaceCheck fields t f = .ok fields2 := by
  rcases ht with rfl | ⟨a, rfl⟩
  · rcases hf with rfl | ⟨b, rfl⟩ <;> exact ⟨fields, rfl⟩
  · rcases hf with rfl | ⟨b, rfl⟩
    · exact ⟨fields, rfl⟩
    · exact ⟨dictSet fields "volume_used_space_mb" (.int (a - b)), rfl⟩

theorem volume_step_ok (fields : Row) (t f : Option Scalar) (k : String) (v : Scalar)
    (hk : k ∈ volumeKnownFields)
    (hv : (k = "volumeSize" ∨ k = "volumeFreeSpace") → ∃ n : Int, v = .int n)
    (ht : intOpt t) (hf : intOpt f) :
    ∃ s1, GetReadyNasStats.volume_step (fields, t, f) (k, v) = .ok s1 ∧
      intOpt s1.2.1 ∧ intOpt s1.2.2 := by
  simp only [volumeKnownFields, List.mem_cons, List.mem_singleton,
    List.not_mem_nil, or_false] at hk
  have hstep : ∀ (fields1 : Row) (t1 f1 : Option Scalar),
      GetReadyNasStats.volumeBranch fields t f k v = .ok (fields1, t1, f1) →
      intOpt t1 → intOpt f1 →
      ∃ s1, GetReadyNasStats.volume_step (fields, t, f) (k, v) = .ok s1 ∧
        intOpt s1.2.1 ∧ intOpt s1.2.2 := by
    intro fields1 t1 f1 hbr ht1 hf1
    obtain ⟨fields2, hus⟩ := usedSpaceCheck_ok fields1 t1 f1 ht1 hf1
    refine ⟨(fields2, t1, f1), ?_, ht1, hf1⟩
    simp only [GetReadyNasStats.volume_step, hbr, hus]
  rcases hk with rfl | rfl | rfl | rfl | rfl
  · exact hstep (dictSet fields "volume_number" v) t f
      (by simp [GetReadyNasStats.volumeBranch]) ht hf
  · exact hstep (dictSet fields "volume_raid_level" v) t f
      (by simp [GetReadyNasStats.volumeBranch]) ht hf
  · exact hstep (GetReadyNasStats.volumeStatusFields fields v) t f
      (by simp [GetReadyNasStats.volumeBranch]) ht hf
  · obtain ⟨n, rfl⟩ := hv (Or.inl rfl)
    exact hstep (dictSet fields "volume_total_size_mb" (.int n)) (some (.int n)) f
      (by simp [GetReadyNasStats.volumeBranch]) (Or.inr ⟨n, rfl⟩) hf
  · obtain ⟨n, rfl⟩ := hv (Or.inr rfl)
    exact hstep (dictSet fields "volume_free_space_mb" (.int n)) t (some (.int n))
      (by simp [GetReadyNasStats.volumeBranch]) ht (Or.inr ⟨n, rfl⟩)

theorem process_volume_fields_ok (l : List (String × Scalar)) :
    ∀ (fields : Row) (t f : Option Scalar),
      (∀ kv ∈ l, kv.1 ∈ volumeKnownFields) →
      (∀ kv ∈ l, (kv.1 = "volumeSize" ∨ kv.1 = "volumeFreeSpace") →
        ∃ n : Int, kv.2 = .int n) →
      intOpt t → intOpt f →
      ∃ s1, processFields GetReadyNasStats.volume_step l (fields, t, f) = .ok s1 := by
  induction l with
  | nil => intro fields t f _ _ _ _; exact ⟨(fields, t, f), rfl⟩
  | cons kv rest ih =>
    intro fields t f hkeys hints ht hf
    obtain ⟨k, v⟩ := kv
    obtain ⟨s1, hs1, ht1, hf1⟩ := volume_step_ok fields t f k v
      (hkeys (k, v) (List.mem_cons_self _ _))
      (hints (k, v) (List.mem_cons_self _ _)) ht hf
    obtain ⟨fields1, t1, f1⟩ := s1
    obtain ⟨s2, hs2⟩ := ih fields1 t1 f1
      (fun kv hkv => hkeys kv (List.mem_cons_of_mem _ hkv))
      (fun kv hkv => hints kv (List.mem_cons_of_mem _ hkv)) ht1 hf1
    exact ⟨s2, by simp only [processFields, hs1, hs2]⟩

/-- A class-variant volume row whose fields are all known and whose sizes
are integers is normalized without error. -/
theorem process_volume_row_ok (sysName : Scalar) (row : Row)
    (hkeys : ∀ kv ∈ row, kv.1 ∈ volumeKnownFields)
    (hints : ∀ kv ∈ row, (kv.1 = "volumeSize" ∨ kv.1 = "volumeFreeSpace") →
      ∃ n : Int, kv.2 = .int n) :
    ∃ r, GetReadyNasStats.process_volume_row sysName row = .ok r := by
  obtain ⟨s1, hs1⟩ := process_volume_fields_ok row (dictSet [] "host" sysName) none none
    hkeys hints (Or.inl rfl) (Or.inl rfl)
  obtain ⟨fields, t, f⟩ := s1
  exact ⟨fields, by simp only [GetReadyNasStats.process_volume_row, hs1]⟩

theorem gather_volume_step_spec (s : Row × Row) (kv : String × Scalar) (s1 : Row × Row)
    (h : Gather.volume_step s kv = .ok s1) :
    dictGet s1.2 "volume_status"
        = updOf (fun kv =>
            if SnmpQuery.get_brief_name kv.1 = .ok "volumeStatus" then
              gatherVolumeStatusCode kv.2
            else none) (dictGet s.2 "volume_status") kv ∧
    dictGet s1.2 "volume_used_space_mb" = dictGet s.2 "volume_used_space_mb" ∧
    dictGet s1.1 "volume_used_space_mb" = dictGet s.1 "volume_used_space_mb" := by
  obtain ⟨tags, fields⟩ := s
  obtain ⟨k, v⟩ := kv
  simp only [Gather.volume_step] at h
  cases hb : SnmpQuery.get_brief_name k with
  | error e => rw [hb] at h; cases h
  | ok brief =>
    rw [hb] at h
    dsimp only at h
    by_cases h1 : brief = "volumeNumber"
    · subst h1
      rw [if_pos rfl] at h
      injection h with hs
      subst hs
      exact ⟨by simp [updOf, hb], rfl, by simp [dictGet_dictSet]⟩
    · rw [if_neg h1] at h
      by_cases h2 : brief = "volumeName"
      · subst h2
        rw [if_pos rfl] at h
        injection h with hs
        subst hs
        exact ⟨by simp [updOf, hb, dictGet_dictSet], by simp [dictGet_dictSet], rfl⟩
      · rw [if_neg h2] at h
        by_cases h3 : brief = "volumeStatus"
        · subst h3
          rw [if_pos rfl] at h
          injection h with hs
          subst hs
          refine ⟨?_, ?_, rfl⟩
          · rw [gatherVolumeStatusFields_get fields v "volume_status", if_pos rfl]
            simp only [updOf, hb]
            cases hgc : gatherVolumeStatusCode v <;> simp [hgc]
          · rw [gatherVolumeStatusFields_get fields v "volume_used_space_mb"]
            simp
        · rw [if_neg h3] at h
          by_cases h4 : brief = "volumeSize"
          · subst h4
            rw [if_pos rfl] at h
            injection h with hs
            subst hs
            exact ⟨by simp [updOf, hb, dictGet_dictSet], by simp [dictGet_dictSet], rfl⟩
          · rw [if_neg h4] at h
            by_cases h5 : brief = "volumeFreeSpace"
            · subst h5
              rw [if_pos rfl] at h
              injection h with hs
              subst hs
              exact ⟨by simp [updOf, hb, dictGet_dictSet], by simp [dictGet_dictSet], rfl⟩
            · rw [if_neg h5] at h
              cases h

/-- The `volume_status` entry of a successfully processed gather volume
point is the fold of the `volumeStatus` updates over the raw row. -/
theorem gather_process_volume_row_status (hn : Scalar) (grow : Row) (pt : Gather.Point)
    (hok : Gather.process_volume_row hn grow = .ok pt) :
    dictGet pt.fields "volume_status"
      = grow.foldl (updOf (fun kv =>
          if SnmpQuery.get_brief_name kv.1 = .ok "volumeStatus" then
            gatherVolumeStatusCode kv.2
          else none)) none := by
  unfold Gather.process_volume_row at hok
  cases hpf : processFields Gather.volume_step grow (dictSet [] "host" hn, []) with
  | error e => rw [hpf] at hok; cases hok
  | ok s1 =>
    rw [hpf] at hok
    obtain ⟨tags, fields⟩ := s1
    injection hok with hpt
    subst hpt
    have ht := processFields_track Gather.volume_step (fun s => dictGet s.2 "volume_status")
        (updOf (fun kv =>
          if SnmpQuery.get_brief_name kv.1 = .ok "volumeStatus" then
            gatherVolumeStatusCode kv.2
          else none))
        (fun s kv s1 h => (gather_volume_step_spec s kv s1 h).1) grow _ _ hpf
    dsimp only at ht
    simpa [dictGet] using ht

/-- The gather volume variant computes no used space: no key of a
successfully produced point's tag or field set is `volume_used_space_mb`. -/
theorem gather_process_volume_row_no_used (hn : Scalar) (grow : Row) (pt : Gather.Point)
    (hok : Gather.process_volume_row hn grow = .ok pt) :
    dictGet pt.fields "volume_used_space_mb" = none ∧
    dictGet pt.tags "volume_used_space_mb" = none := by
  unfold Gather.process_volume_row at hok
  cases hpf : processFields Gather.volume_step grow (dictSet [] "host" hn, []) with
  | error e => rw [hpf] at hok; cases hok
  | ok s1 =>
    rw [hpf] at hok
    obtain ⟨tags, fields⟩ := s1
    injection hok with hpt
    subst hpt
    have hf := processFields_track Gather.volume_step
        (fun s => dictGet s.2 "volume_used_space_mb") (fun a _ => a)
        (fun s kv s1 h => (gather_volume_step_spec s kv s1 h).2.1) grow _ _ hpf
    have hg := processFields_track Gather.volume_step
        (fun s => dictGet s.1 "volume_used_space_mb") (fun a _ => a)
        (fun s kv s1 h => (gather_volume_step_spec s kv s1 h).2.2) grow _ _ hpf
    dsimp only at hf hg
    rw [foldl_const] at hf hg
    refine ⟨by simpa [dictGet] using hf, ?_⟩
    rw [hg]
    simp [dictGet_dictSet, dictGet]

theorem classVolumeStatusCode_members (v : Scalar) :
    classVolumeStatusCode v ≠ none ↔
      (v = .str "REDUNDANT" ∨ v = .str "DEGRADED" ∨ v = .str "UNPROTECTED" ∨
       v = .str "DEAD" ∨ v = .str "INACTIVE" ∨ v = .str "UNKNOWN") := by
  unfold classVolumeStatusCode
  split_ifs with h1 h2 h3 h4 h5 h6 <;> simp_all

/-- **C1** — For every volume raw row, the normalized record contains
`volume_status` exactly when the raw `volumeStatus` value is one of the six
strings `REDUNDANT`, `DEGRADED`, `UNPROTECTED`, `DEAD`, `INACTIVE`,
`UNKNOWN` (a non-member value yields a record without the key and raises no
error), and the codes assigned to the six strings are consecutive and
increasing in that order: `0`-`5` in the class variant, `1`-`6` in the
gather variant. -/
theorem volume_status_membership_and_codes :
    (∀ (sysName : Scalar) (row : Row) (r : Row),
      (row.map Prod.fst).Nodup →
      GetReadyNasStats.process_volume_row sysName row = .ok r →
      (dictGet r "volume_status" = (dictGet row "volumeStatus").bind classVolumeStatusCode ∧
       ((∃ c, dictGet r "volume_status" = some c) ↔
         (∃ v, dictGet row "volumeStatus" = some v ∧
           (v = .str "REDUNDANT" ∨ v = .str "DEGRADED" ∨ v = .str "UNPROTECTED" ∨
            v = .str "DEAD" ∨ v = .str "INACTIVE" ∨ v = .str "UNKNOWN"))))) ∧
    (classVolumeStatusCode (.str "REDUNDANT") = some (.int 0) ∧
     classVolumeStatusCode (.str "DEGRADED") = some (.int 1) ∧
     classVolumeStatusCode (.str "UNPROTECTED") = some (.int 2) ∧
     classVolumeStatusCode (.str "DEAD") = some (.int 3) ∧
     classVolumeStatusCode (.str "INACTIVE") = some (.int 4) ∧
     classVolumeStatusCode (.str "UNKNOWN") = some (.int 5)) ∧
    (∀ (sysName : Scalar) (row : Row),
      (∀ kv ∈ row, kv.1 ∈ volumeKnownFields) →
      (∀ kv ∈ row, (kv.1 = "volumeSize" ∨ kv.1 = "volumeFreeSpace") →
        ∃ n : Int, kv.2 = .int n) →
      ∃ r, GetReadyNasStats.process_volume_row sysName row = .ok r) ∧
    (∀ (hn : Scalar) (grow : Row) (pt : Gather.Point),
      Gather.process_volume_row hn grow = .ok pt →
      (∀ (k : String) (v : Scalar), (k, v) ∈ grow →
        SnmpQuery.get_brief_name k = .ok "volumeStatus" →
        (∀ kv' ∈ grow, SnmpQuery.get_brief_name kv'.1 = .ok "volumeStatus" →
          kv' = (k, v)) →
        dictGet pt.fields "volume_status" = gatherVolumeStatusCode v) ∧
      ((∀ kv' ∈ grow, SnmpQuery.get_brief_name kv'.1 ≠ .ok "volumeStatus") →
        dictGet pt.fields "volume_status" = none)) ∧
    (gatherVolumeStatusCode (.str "REDUNDANT") = some (.int 1) ∧
     gatherVolumeStatusCode (.str "DEGRADED") = some (.int 2) ∧
     gatherVolumeStatusCode (.str "UNPROTECTED") = some (.int 3) ∧
     gatherVolumeStatusCode (.str "DEAD") = some (.int 4) ∧
     gatherVolumeStatusCode (.str "INACTIVE") = some (.int 5) ∧
     gatherVolumeStatusCode (.str "UNKNOWN") = some (.int 6)) := by
  refine ⟨?_, by decide, process_volume_row_ok, ?_, by decide⟩
  · intro sysName row r hnodup hok
    have heq := process_volume_row_status sysName row r hnodup hok
    refine ⟨heq, ?_, ?_⟩
    · rintro ⟨c, hc⟩
      rw [heq] at hc
      cases hds : dictGet row "volumeStatus" with
      | none => rw [hds] at hc; cases hc
      | some v =>
        rw [hds] at hc
        simp only [Option.some_bind] at hc
        refine ⟨v, rfl, (classVolumeStatusCode_members v).mp ?_⟩
        rw [hc]
        exact fun hno => by cases hno
    · rintro ⟨v, hv, hdisj⟩
      have hne : classVolumeStatusCode v ≠ none :=
        (classVolumeStatusCode_members v).mpr hdisj
      cases hcv : classVolumeStatusCode v with
      | none => exact absurd hcv hne
      | some c => exact ⟨c, by rw [heq, hv, Option.some_bind, hcv]⟩
  · intro hn grow pt hok
    have heq := gather_process_volume_row_status hn grow pt hok
    constructor
    · intro k v hmem hbk huniq
      rw [heq]
      cases hgc : gatherVolumeStatusCode v with
      | some c =>
        apply foldl_updOf_unique _ _ (k, v) c hmem (by simp [hbk, hgc])
        rintro ⟨k', v'⟩ hkv' hne
        by_cases hb : SnmpQuery.get_brief_name k' = .ok "volumeStatus"
        · exact huniq (k', v') hkv' hb
        · simp [hb] at hne
      | none =>
        apply foldl_updOf_none
        rintro ⟨k', v'⟩ hkv'
        by_cases hb : SnmpQuery.get_brief_name k' = .ok "volumeStatus"
        · have := huniq (k', v') hkv' hb
          injection this with hk' hv'
          subst hk'
          subst hv'
          simp [hb, hgc]
        · simp [hb]
    · intro hnone
      rw [heq]
      apply foldl_updOf_none
      rintro ⟨k', v'⟩ hkv'
      simp [hnone (k', v') hkv']

/-- Witness for **C1**: a concrete `DEGRADED` row gets code `1` in the class
variant, and a row whose `volumeStatus` is not one of the six member strings
is normalized without error. -/
theorem volume_status_membership_and_codes_witness :
    dictGet [("host", Scalar.str "bigbang"), ("volume_number", Scalar.int 1),
        ("volume_raid_level", Scalar.str "raid5"), ("volume_status", Scalar.int 1),
        ("volume_total_size_mb", Scalar.int 1000), ("volume_free_space_mb", Scalar.int 400),
        ("volume_used_space_mb", Scalar.int 600)] "volume_status" = some (.int 1) ∧
    (∃ r, GetReadyNasStats.process_volume_row (.str "nas")
        [("volumeNumber", .int 2), ("volumeStatus", .str "NOT-A-STATUS")] = .ok r) :=
  ⟨((volume_status_membership_and_codes.1 (.str "bigbang")
      [("volumeNumber", .int 1), ("volumeRAIDLevel", .str "raid5"),
        ("volumeStatus", .str "DEGRADED"), ("volumeSize", .int 1000),
        ("volumeFreeSpace", .int 400)]
      [("host", Scalar.str "bigbang"), ("volume_number", Scalar.int 1),
        ("volume_raid_level", Scalar.str "raid5"), ("volume_status", Scalar.int 1),
        ("volume_total_size_mb", Scalar.int 1000), ("volume_free_space_mb", Scalar.int 400),
        ("volume_used_space_mb", Scalar.int 600)]
      (by decide) (by decide)).1).trans (by decide),
   volume_status_membership_and_codes.2.2.1 (.str "nas")
      [("volumeNumber", .int 2), ("volumeStatus", .str "NOT-A-STATUS")]
      (by decide)
      (by
        intro kv hkv hsz
        rcases List.mem_cons.mp hkv with rfl | hkv2
        · rcases hsz with h | h <;> exact absurd h (by decide)
        · rcases List.mem_cons.mp hkv2 with rfl | hkv3
          · rcases hsz with h | h <;> exact absurd h (by decide)
          · cases hkv3)⟩

/-! ## C5 — unknown-field handling -/

/-- The known field identifiers of the disk table. -/
def diskKnownFields : List String :=
  ["diskNumber", "ataError", "diskState", "diskTemperature"]

/-- The known field identifiers of the fan table. -/
def fanKnownFields : List String := ["fanNumber", "fanRPM", "fanStatus"]

/-- The known field identifiers of the temperature table. -/
def temperatureKnownFields : List String := ["temperatureNumber", "temperatureValue"]

theorem disk_step_error (s : Row) (kv : String × Scalar) (e : PyExc)
    (h : GetReadyNasStats.disk_step s kv = .error e) : e = .valueError := by
  obtain ⟨k, v⟩ := kv
  simp only [GetReadyNasStats.disk_step] at h
  split_ifs at h <;> (cases h; try rfl)

theorem disk_step_unknown (s : Row) (k : String) (v : Scalar)
    (hk : k ∉ diskKnownFields) :
    GetReadyNasStats.disk_step s (k, v) = .error .valueError := by
  simp only [diskKnownFields, List.mem_cons, List.not_mem_nil, or_false] at hk
  push_neg at hk
  obtain ⟨h1, h2, h3, h4⟩ := hk
  simp [GetReadyNasStats.disk_step, h1, h2, h3, h4]

theorem disk_step_known (s : Row) (k : String) (v : Scalar)
    (hk : k ∈ diskKnownFields) :
    ∃ s1, GetReadyNasStats.disk_step s (k, v) = .ok s1 := by
  simp only [diskKnownFields, List.mem_cons, List.not_mem_nil, or_false] at hk
  rcases hk with rfl | rfl | rfl | rfl
  · exact ⟨dictSet s "disk_number" v, by simp [GetReadyNasStats.disk_step]⟩
  · exact ⟨dictSet s "ata_error_count" v, by simp [GetReadyNasStats.disk_step]⟩
  · exact ⟨dictSet s "disk_status" (if v = .str "ONLINE" then .int 0 else .int 1),
      by simp [GetReadyNasStats.disk_step]⟩
  · exact ⟨dictSet s "disk_temperature" v, by simp [GetReadyNasStats.disk_step]⟩

theorem fan_step_error (s : Row) (kv : String × Scalar) (e : PyExc)
    (h : GetReadyNasStats.fan_step s kv = .error e) : e = .valueError := by
  obtain ⟨k, v⟩ := kv
  simp only [GetReadyNasStats.fan_step] at h
  split_ifs at h <;> (cases h; try rfl)

theorem fan_step_unknown (s : Row) (k : String) (v : Scalar)
    (hk : k ∉ fanKnownFields) :
    GetReadyNasStats.fan_step s (k, v) = .error .valueError := by
  simp only [fanKnownFields, List.mem_cons, List.not_mem_nil, or_false] at hk
  push_neg at hk
  obtain ⟨h1, h2, h3⟩ := hk
  simp [GetReadyNasStats.fan_step, h1, h2, h3]

theorem fan_step_known (s : Row) (k : String) (v : Scalar)
    (hk : k ∈ fanKnownFields) :
    ∃ s1, GetReadyNasStats.fan_step s (k, v) = .ok s1 := by
  simp only [fanKnownFields, List.mem_cons, List.not_mem_nil, or_false] at hk
  rcases hk with rfl | rfl | rfl
  · exact ⟨dictSet s "fan_number" v, by simp [GetReadyNasStats.fan_step]⟩
  · exact ⟨dictSet s "fan_speed_rpm" v, by simp [GetReadyNasStats.fan_step]⟩
  · exact ⟨dictSet s "fan_status" (if v = .str "ok" then .int 0 else .int 1),
      by simp [GetReadyNasStats.fan_step]⟩

theorem temperature_step_error (s : Row) (kv : String × Scalar) (e : PyExc)
    (h : GetReadyNasStats.temperature_step s kv = .error e) : e = .valueError := by
  obtain ⟨k, v⟩ := kv
  simp only [GetReadyNasStats.temperature_step] at h
  split_ifs at h <;> (cases h; try rfl)

theorem temperature_step_unknown (s : Row) (k : String) (v : Scalar)
    (hk : k ∉ temperatureKnownFields) :
    GetReadyNasStats.temperature_step s (k, v) = .error .valueError := by
  simp only [temperatureKnownFields, List.mem_cons, List.not_mem_nil, or_false] at hk
  push_neg at hk
  obtain ⟨h1, h2⟩ := hk
  simp [GetReadyNasStats.temperature_step, h1, h2]

theorem temperature_step_known (s : Row) (k : String) (v : Scalar)
    (hk : k ∈ temperatureKnownFields) :
    ∃ s1, GetReadyNasStats.temperature_step s (k, v) = .ok s1 := by
  simp only [temperatureKnownFields, List.mem_cons, List.not_mem_nil, or_false] at hk
  rcases hk with rfl | rfl
  · exact ⟨dictSet s "temperature_number" v, by simp [GetReadyNasStats.temperature_step]⟩
  · exact ⟨dictSet s "temperature_celsius" v, by simp [GetReadyNasStats.temperature_step]⟩

theorem volume_step_unknown (fields : Row) (t f : Option Scalar) (k : String) (v : Scalar)
    (hk : k ∉ volumeKnownFields) :
    GetReadyNasStats.volume_step (fields, t, f) (k, v) = .error .valueError := by
  have hbr : GetReadyNasStats.volumeBranch fields t f k v = .error .valueError := by
    simp only [volumeKnownFields, List.mem_cons, List.not_mem_nil, or_false] at hk
    push_neg at hk
    obtain ⟨n1, n2, n3, n4, n5⟩ := hk
    simp [GetReadyNasStats.volumeBranch, n1, n2, n3, n4, n5]
  simp [GetReadyNasStats.volume_step, hbr]

theorem volume_step_error_int (fields : Row) (t f : Option Scalar) (k : String)
    (v : Scalar) (e : PyExc)
    (hv : (k = "volumeSize" ∨ k = "volumeFreeSpace") → ∃ n : Int, v = .int n)
    (ht : intOpt t) (hf : intOpt f)
    (h : GetReadyNasStats.volume_step (fields, t, f) (k, v) = .error e) :
    e = .valueError := by
  by_cases hk : k ∈ volumeKnownFields
  · obtain ⟨s1, hs1, _, _⟩ := volume_step_ok fields t f k v hk hv ht hf
    rw [hs1] at h
    cases h
  · rw [volume_step_unknown fields t f k v hk] at h
    injection h with he
    exact he.symm

theorem volume_fields_unknown (l : List (String × Scalar)) :
    ∀ (fields : Row) (t f : Option Scalar),
      (∀ kv ∈ l, (kv.1 = "volumeSize" ∨ kv.1 = "volumeFreeSpace") →
        ∃ n : Int, kv.2 = .int n) →
      intOpt t → intOpt f →
      (∃ kv ∈ l, kv.1 ∉ volumeKnownFields) →
      processFields GetReadyNasStats.volume_step l (fields, t, f)
        = .error .valueError := by
  induction l with
  | nil =>
    rintro _ _ _ _ _ _ ⟨kv, hkv, _⟩
    cases hkv
  | cons kv0 rest ih =>
    rintro fields t f hints ht hf ⟨kv, hkv, hbad⟩
    obtain ⟨k0, v0⟩ := kv0
    by_cases hk0 : k0 ∈ volumeKnownFields
    · obtain ⟨s1, hs1, ht1, hf1⟩ := volume_step_ok fields t f k0 v0 hk0
        (hints (k0, v0) (List.mem_cons_self _ _)) ht hf
      obtain ⟨fields1, t1, f1⟩ := s1
      have hex : ∃ kv ∈ rest, kv.1 ∉ volumeKnownFields := by
        rcases List.mem_cons.mp hkv with rfl | hmem
        · exact absurd hk0 hbad
        · exact ⟨kv, hmem, hbad⟩
      simp only [processFields, hs1]
      exact ih fields1 t1 f1 (fun kv hkv => hints kv (List.mem_cons_of_mem _ hkv))
        ht1 hf1 hex
    · simp only [processFields, volume_step_unknown fields t f k0 v0 hk0]

theorem volume_fields_error_int (l : List (String × Scalar)) :
    ∀ (fields : Row) (t f : Option Scalar) (e : PyExc),
      (∀ kv ∈ l, (kv.1 = "volumeSize" ∨ kv.1 = "volumeFreeSpace") →
        ∃ n : Int, kv.2 = .int n) →
      intOpt t → intOpt f →
      processFields GetReadyNasStats.volume_step l (fields, t, f) = .error e →
      e = .valueError := by
  induction l with
  | nil => intro _ _ _ _ _ _ _ h; cases h
  | cons kv0 rest ih =>
    intro fields t f e hints ht hf h
    obtain ⟨k0, v0⟩ := kv0
    simp only [processFields] at h
    cases hs : GetReadyNasStats.volume_step (fields, t, f) (k0, v0) with
    | error e0 =>
      rw [hs] at h
      injection h with he
      exact he ▸ volume_step_error_int fields t f k0 v0 e0
        (hints (k0, v0) (List.mem_cons_self _ _)) ht hf hs
    | ok s1 =>
      rw [hs] at h
      obtain ⟨hst, ht1, hf1, hused, hhost, hmem⟩ := volume_step_spec _ _ _ hs
      obtain ⟨fields1, t1, f1⟩ := s1
      have hti : intOpt t1 := by
        simp only at ht1
        rw [ht1]
        by_cases hk : k0 = "volumeSize"
        · rw [if_pos hk]
          obtain ⟨n, rfl⟩ := hints (k0, v0) (List.mem_cons_self _ _) (Or.inl hk)
          exact Or.inr ⟨n, rfl⟩
        · rwa [if_neg hk]
      have hfi : intOpt f1 := by
        simp only at hf1
        rw [hf1]
        by_cases hk : k0 = "volumeFreeSpace"
        · rw [if_pos hk]
          obtain ⟨n, rfl⟩ := hints (k0, v0) (List.mem_cons_self _ _) (Or.inr hk)
          exact Or.inr ⟨n, rfl⟩
        · rwa [if_neg hk]
      exact ih fields1 t1 f1 e
        (fun kv hkv => hints kv (List.mem_cons_of_mem _ hkv)) hti hfi h

/-- The gather disk field-loop body succeeds on every key whose brief name
is known, whatever the state. -/
theorem gather_disk_step_known (s : Row × Row) (k : String) (v : Scalar) (b : String)
    (hb : SnmpQuery.get_brief_name k = .ok b) (hbk : b ∈ diskKnownFields) :
    ∃ s1, Gather.disk_step s (k, v) = .ok s1 := by
  obtain ⟨tags, fields⟩ := s
  simp only [diskKnownFields, List.mem_cons, List.not_mem_nil, or_false] at hbk
  rcases hbk with rfl | rfl | rfl | rfl
  · exact ⟨(dictSet tags "disk_number" v, fields), by simp [Gather.disk_step, hb]⟩
  · exact ⟨(tags, dictSet fields "ata_error_count" v), by simp [Gather.disk_step, hb]⟩
  · exact ⟨(tags, dictSet fields "disk_status"
      (if v = .str "ONLINE" then .int 0 else .int 1)), by simp [Gather.disk_step, hb]⟩
  · exact ⟨(tags, dictSet fields "disk_temperature" v), by simp [Gather.disk_step, hb]⟩

/-- The gather disk field-loop body raises the unexpected-field `ValueError`
on every key whose brief name is resolved but unknown. -/
theorem gather_disk_step_unknown (s : Row × Row) (k : String) (v : Scalar) (b : String)
    (hb : SnmpQuery.get_brief_name k = .ok b) (hbk : b ∉ diskKnownFields) :
    Gather.disk_step s (k, v) = .error .valueError := by
  obtain ⟨tags, fields⟩ := s
  simp only [diskKnownFields, List.mem_cons, List.not_mem_nil, or_false] at hbk
  push_neg at hbk
  obtain ⟨h1, h2, h3, h4⟩ := hbk
  simp [Gather.disk_step, hb, h1, h2, h3, h4]

/-- A row loop over plain rows in which some row fails — every failure
carrying the fixed exception `E` — aborts with `E`. -/
theorem emitRows_rows_bad (f : Row → Except PyExc Row) (rows : List Row) (E : PyExc)
    (huni : ∀ row ∈ rows, ∀ e, f row = .error e → e = E)
    (hex : ∃ row ∈ rows, ∃ e, f row = .error e) :
    GetReadyNasStats.emitRows (fun pv =>
      match GetReadyNasStats.pyItems pv with
      | .error exc => .error exc
      | .ok items => f items) (rows.map GetReadyNasStats.PyVal.row) = .error E := by
  apply emitRows_error_uniform
  · rintro pv hpv e he
    rcases List.mem_map.mp hpv with ⟨row, hrow, rfl⟩
    simp only [GetReadyNasStats.pyItems] at he
    exact huni row hrow e he
  · rcases hex with ⟨row, hrow, e, he⟩
    exact ⟨.row row, List.mem_map_of_mem _ hrow, e,
      by simpa [GetReadyNasStats.pyItems] using he⟩

theorem process_volume_row_error_int (sysName : Scalar) (row : Row) (e : PyExc)
    (hints : ∀ kv ∈ row, (kv.1 = "volumeSize" ∨ kv.1 = "volumeFreeSpace") →
      ∃ n : Int, kv.2 = .int n)
    (h : GetReadyNasStats.process_volume_row sysName row = .error e) :
    e = .valueError := by
  unfold GetReadyNasStats.process_volume_row at h
  cases hpf : processFields GetReadyNasStats.volume_step row
      (dictSet [] "host" sysName, none, none) with
  | error e0 =>
    rw [hpf] at h
    injection h with he
    exact he ▸ volume_fields_error_int row _ none none e0 hints (Or.inl rfl) (Or.inl rfl) hpf
  | ok s1 =>
    rw [hpf] at h
    obtain ⟨fields, t, f⟩ := s1
    cases h

theorem process_volume_row_unknown_int (sysName : Scalar) (row : Row)
    (hints : ∀ kv ∈ row, (kv.1 = "volumeSize" ∨ kv.1 = "volumeFreeSpace") →
      ∃ n : Int, kv.2 = .int n)
    (hex : ∃ kv ∈ row, kv.1 ∉ volumeKnownFields) :
    GetReadyNasStats.process_volume_row sysName row = .error .valueError := by
  have hpf := volume_fields_unknown row (dictSet [] "host" sysName) none none hints
    (Or.inl rfl) (Or.inl rfl) hex
  simp only [GetReadyNasStats.process_volume_row, hpf]

/-- **C5** (amended) — A raw row containing a field identifier outside its
table's known set makes the normalizer fail and the invocation emit zero
records.  The exception is the unexpected-field `ValueError` for the disk,
fan and temperature tables unconditionally, for the gather disk table
whenever the row's keys resolve to brief names, and for the volume table
whenever the row's size values are integers; a volume row with non-numeric
sizes can instead abort with the `TypeError` of the used-space subtraction
(see the counterexample), but in every case a volume walk containing an
unknown field produces no output records. -/
theorem unknown_field_fail_fast :
    (∀ (sysName : Scalar) (rows : List Row),
      (∃ row ∈ rows, ∃ kv ∈ row, kv.1 ∉ diskKnownFields) →
      GetReadyNasStats.process_readynas_disk_table sysName (.pylist rows)
        = .error .valueError) ∧
    (∀ (sysName : Scalar) (entries : List (String × Row)),
      (∃ row ∈ entries.map Prod.snd, ∃ kv ∈ row, kv.1 ∉ fanKnownFields) →
      GetReadyNasStats.process_readynas_fan_table sysName (.pydict entries)
        = .error .valueError) ∧
    (∀ (sysName : Scalar) (entries : List (String × Row)),
      (∃ row ∈ entries.map Prod.snd, ∃ kv ∈ row, kv.1 ∉ temperatureKnownFields) →
      GetReadyNasStats.process_readynas_temperature_table sysName (.pydict entries)
        = .error .valueError) ∧
    (∀ (sysName : Scalar) (entries : List (String × Row)),
      (∃ row ∈ entries.map Prod.snd, ∃ kv ∈ row, kv.1 ∉ volumeKnownFields) →
      ∀ rs, GetReadyNasStats.process_readynas_volume_table sysName (.pydict entries)
        ≠ .ok rs) ∧
    (∀ (sysName : Scalar) (entries : List (String × Row)),
      (∀ row ∈ entries.map Prod.snd, ∀ kv ∈ row,
        (kv.1 = "volumeSize" ∨ kv.1 = "volumeFreeSpace") → ∃ n : Int, kv.2 = .int n) →
      (∃ row ∈ entries.map Prod.snd, ∃ kv ∈ row, kv.1 ∉ volumeKnownFields) →
      GetReadyNasStats.process_readynas_volume_table sysName (.pydict entries)
        = .error .valueError) ∧
    (∀ (hn : Scalar) (row : Row),
      (∀ kv ∈ row, ∃ b, SnmpQuery.get_brief_name kv.1 = .ok b) →
      (∃ kv ∈ row, ∃ b, SnmpQuery.get_brief_name kv.1 = .ok b ∧ b ∉ diskKnownFields) →
      Gather.process_disk_row hn row = .error .valueError) := by
  refine ⟨?_, ?_, ?_, ?_, ?_, ?_⟩
  · intro sysName rows hex
    refine emitRows_rows_bad (GetReadyNasStats.process_disk_row sysName) rows .valueError
      ?_ ?_
    · intro row _ e he
      exact processFields_error_uniform _ _ disk_step_error row _ e he
    · rcases hex with ⟨row, hrow, kv, hkv, hbad⟩
      refine ⟨row, hrow, .valueError, ?_⟩
      exact processFields_bad_field _ (fun kv => kv.1 ∈ diskKnownFields) _ row
        (fun kv _ hg s => disk_step_known s kv.1 kv.2 hg)
        (fun kv _ hb s => disk_step_unknown s kv.1 kv.2 hb)
        ⟨kv, hkv, hbad⟩ _
  · intro sysName entries hex
    simp only [GetReadyNasStats.process_readynas_fan_table, GetReadyNasStats.pyValues]
    refine emitRows_rows_bad (GetReadyNasStats.process_fan_row sysName) _ .valueError ?_ ?_
    · intro row _ e he
      exact processFields_error_uniform _ _ fan_step_error row _ e he
    · rcases hex with ⟨row, hrow, kv, hkv, hbad⟩
      refine ⟨row, hrow, .valueError, ?_⟩
      exact processFields_bad_field _ (fun kv => kv.1 ∈ fanKnownFields) _ row
        (fun kv _ hg s => fan_step_known s kv.1 kv.2 hg)
        (fun kv _ hb s => fan_step_unknown s kv.1 kv.2 hb)
        ⟨kv, hkv, hbad⟩ _
  · intro sysName entries hex
    simp only [GetReadyNasStats.process_readynas_temperature_table,
      GetReadyNasStats.pyValues]
    refine emitRows_rows_bad (GetReadyNasStats.process_temperature_row sysName) _
      .valueError ?_ ?_
    · intro row _ e he
      exact processFields_error_uniform _ _ temperature_step_error row _ e he
    · rcases hex with ⟨row, hrow, kv, hkv, hbad⟩
      refine ⟨row, hrow, .valueError, ?_⟩
      exact processFields_bad_field _ (fun kv => kv.1 ∈ temperatureKnownFields) _ row
        (fun kv _ hg s => temperature_step_known s kv.1 kv.2 hg)
        (fun kv _ hb s => temperature_step_unknown s kv.1 kv.2 hb)
        ⟨kv, hkv, hbad⟩ _
  · intro sysName entries hex rs hok
    simp only [GetReadyNasStats.process_readynas_volume_table,
      GetReadyNasStats.pyValues] at hok
    rcases hex with ⟨row, hrow, kv, hkv, hbad⟩
    obtain ⟨r, hr⟩ := emitRows_ok_mem _ _ _ hok (.row row)
      (List.mem_map_of_mem _ hrow)
    simp only [GetReadyNasStats.pyItems] at hr
    unfold GetReadyNasStats.process_volume_row at hr
    cases hpf : processFields GetReadyNasStats.volume_step row
        (dictSet [] "host" sysName, none, none) with
    | error e => rw [hpf] at hr; cases hr
    | ok s1 =>
      have hknown := processFields_ok_mem GetReadyNasStats.volume_step
        (fun kv => kv.1 ∈ volumeKnownFields)
        (fun s kv s1 h => (volume_step_spec s kv s1 h).2.2.2.2.2) row _ _ hpf
      exact hbad (hknown kv hkv)
  · intro sysName entries hints hex
    simp only [GetReadyNasStats.process_readynas_volume_table,
      GetReadyNasStats.pyValues]
    refine emitRows_rows_bad (GetReadyNasStats.process_volume_row sysName) _
      .valueError ?_ ?_
    · intro row hrow e he
      exact process_volume_row_error_int sysName row e (hints row hrow) he
    · rcases hex with ⟨row, hrow, kv, hkv, hbad⟩
      exact ⟨row, hrow, .valueError,
        process_volume_row_unknown_int sysName row (hints row hrow) ⟨kv, hkv, hbad⟩⟩
  · intro hn row hwf hex
    have hpf : processFields Gather.disk_step row (dictSet [] "host" hn, [])
        = .error .valueError := by
      refine processFields_bad_field _
        (fun kv => ∃ b, SnmpQuery.get_brief_name kv.1 = .ok b ∧ b ∈ diskKnownFields)
        _ row ?_ ?_ ?_ _
      · rintro kv _ ⟨b, hgb, hbk⟩ s
        exact gather_disk_step_known s kv.1 kv.2 b hgb hbk
      · rintro kv hkv hng s
        obtain ⟨b, hgb⟩ := hwf kv hkv
        have hnb : b ∉ diskKnownFields := fun hb => hng ⟨b, hgb, hb⟩
        exact gather_disk_step_unknown s kv.1 kv.2 b hgb hnb
      · rcases hex with ⟨kv, hkv, b, hgb, hnb⟩
        refine ⟨kv, hkv, ?_⟩
        rintro ⟨b', hgb', hb'⟩
        rw [hgb] at hgb'
        injection hgb' with hbb
        exact hnb (hbb ▸ hb')
    simp only [Gather.process_disk_row, hpf]

/-- Counterexample for **C5** as stated: a volume row carrying the unknown
field `bogus` after string-valued sizes aborts with the `TypeError` of the
used-space subtraction, not with the unexpected-field `ValueError` — still
emitting zero records, but with a different exception than claimed. -/
theorem unknown_field_typeerror_cex :
    GetReadyNasStats.process_readynas_volume_table (.str "nas")
        (.pydict [("1", [("volumeSize", .str "a"), ("volumeFreeSpace", .str "b"),
          ("bogus", .int 0)])])
      = .error .typeError ∧
    PyExc.typeError ≠ PyExc.valueError := by
  constructor
  · rfl
  · decide

/-- Witness for **C5** (amended): a disk row with the unknown field `bogus`
aborts the whole disk invocation with `ValueError`, and an integer-sized
volume row with an unknown field aborts the volume invocation with
`ValueError`. -/
theorem unknown_field_fail_fast_witness :
    GetReadyNasStats.process_readynas_disk_table (.str "nas")
        (.pylist [[("diskNumber", .int 1), ("bogus", .int 7)]]) = .error .valueError ∧
    GetReadyNasStats.process_readynas_volume_table (.str "nas")
        (.pydict [("1", [("volumeSize", .int 100), ("volumeFreeSpace", .int 40),
          ("bogus", .int 7)])]) = .error .valueError :=
  ⟨unknown_field_fail_fast.1 (.str "nas") [[("diskNumber", .int 1), ("bogus", .int 7)]]
      ⟨[("diskNumber", .int 1), ("bogus", .int 7)], by decide,
        ("bogus", .int 7), by decide, by decide⟩,
   unknown_field_fail_fast.2.2.2.2.1 (.str "nas")
      [("1", [("volumeSize", .int 100), ("volumeFreeSpace", .int 40), ("bogus", .int 7)])]
      (by
        intro row hrow kv hkv hsz
        simp only [List.map_cons, List.map_nil, List.mem_singleton] at hrow
        subst hrow
        rcases List.mem_cons.mp hkv with rfl | hkv2
        · exact ⟨100, rfl⟩
        · rcases List.mem_cons.mp hkv2 with rfl | hkv3
          · exact ⟨40, rfl⟩
          · rcases List.mem_cons.mp hkv3 with rfl | hkv4
            · rcases hsz with h | h <;> exact absurd h (by decide)
            · cases hkv4)
      ⟨[("volumeSize", .int 100), ("volumeFreeSpace", .int 40), ("bogus", .int 7)],
        by decide, ("bogus", .int 7), by decide, by decide⟩⟩

/-- Counterexample for **C4** as stated: the gather-variant volume
normalizer receives a row with both `volumeSize` and `volumeFreeSpace`
present, succeeds, and still emits no `volume_used_space_mb` (it stores the
sizes as `volume_size_mb` / `volume_free_mb` and computes nothing). -/
theorem volume_used_space_gather_missing :
    (Gather.process_volume_row (.str "bigbang")
        [("READYNASOS-MIB::volumeNumber.1", .int 1),
         ("READYNASOS-MIB::volumeStatus.1", .str "DEGRADED"),
         ("READYNASOS-MIB::volumeSize.1", .int 1000),
         ("READYNASOS-MIB::volumeFreeSpace.1", .int 400)]).map
      (fun pt => (dictGet pt.fields "volume_used_space_mb",
        dictGet pt.fields "volume_size_mb", dictGet pt.fields "volume_free_mb"))
      = .ok (none, some (.int 1000), some (.int 400)) := by
  rfl

/-- **C4** (amended) — In the class variant the claim holds: a volume row
with integer `volumeSize` and `volumeFreeSpace` yields `volume_used_space_mb`
equal exactly to their difference, and a row missing either never yields the
key.  The gather variant never emits `volume_used_space_mb` at all. -/
theorem volume_used_space_identity :
    (∀ (sysName : Scalar) (row : Row) (r : Row),
      (row.map Prod.fst).Nodup →
      GetReadyNasStats.process_volume_row sysName row = .ok r →
      ((∀ a b : Int, dictGet row "volumeSize" = some (.int a) →
          dictGet row "volumeFreeSpace" = some (.int b) →
          dictGet r "volume_used_space_mb" = some (.int (a - b))) ∧
       ((dictGet row "volumeSize" = none ∨ dictGet row "volumeFreeSpace" = none) →
          dictGet r "volume_used_space_mb" = none))) ∧
    (∀ (hn : Scalar) (grow : Row) (pt : Gather.Point),
      Gather.process_volume_row hn grow = .ok pt →
      dictGet pt.fields "volume_used_space_mb" = none ∧
      dictGet pt.tags "volume_used_space_mb" = none) := by
  refine ⟨?_, gather_process_volume_row_no_used⟩
  intro sysName row r hnodup hok
  have heq := process_volume_row_used sysName row r hnodup hok
  constructor
  · intro a b ha hb
    rw [heq, ha, hb]
    rfl
  · intro hmiss
    rcases hmiss with hm | hm
    · rw [heq, hm]
    · rw [heq, hm]
      cases dictGet row "volumeSize" <;> rfl

/-- Witness for **C4** (amended): a concrete class-variant row with
`volumeSize = 1000` and `volumeFreeSpace = 400` yields used space `600`. -/
theorem volume_used_space_identity_witness :
    dictGet [("host", Scalar.str "bigbang"), ("volume_number", Scalar.int 1),
        ("volume_raid_level", Scalar.str "raid5"), ("volume_status", Scalar.int 1),
        ("volume_total_size_mb", Scalar.int 1000), ("volume_free_space_mb", Scalar.int 400),
        ("volume_used_space_mb", Scalar.int 600)] "volume_used_space_mb"
      = some (.int 600) :=
  ((volume_used_space_identity.1 (.str "bigbang")
      [("volumeNumber", .int 1), ("volumeRAIDLevel", .str "raid5"),
        ("volumeStatus", .str "DEGRADED"), ("volumeSize", .int 1000),
        ("volumeFreeSpace", .int 400)]
      [("host", Scalar.str "bigbang"), ("volume_number", Scalar.int 1),
        ("volume_raid_level", Scalar.str "raid5"), ("volume_status", Scalar.int 1),
        ("volume_total_size_mb", Scalar.int 1000), ("volume_free_space_mb", Scalar.int 400),
        ("volume_used_space_mb", Scalar.int 600)]
      (by decide) (by decide)).1 1000 400 (by decide) (by decide)).trans (by decide)

/-! ## C3 — host field and device-name query counts -/

theorem disk_step_host (s : Row) (kv : String × Scalar) (s1 : Row)
    (h : GetReadyNasStats.disk_step s kv = .ok s1) :
    dictGet s1 "host" = dictGet s "host" := by
  obtain ⟨k, v⟩ := kv
  simp only [GetReadyNasStats.disk_step] at h
  split_ifs at h <;> (cases h; try simp [dictGet_dictSet])

theorem gather_disk_step_tags_host (s : Row × Row) (kv : String × Scalar) (s1 : Row × Row)
    (h : Gather.disk_step s kv = .ok s1) :
    dictGet s1.1 "host" = dictGet s.1 "host" := by
  obtain ⟨tags, fields⟩ := s
  obtain ⟨k, v⟩ := kv
  simp only [Gather.disk_step] at h
  cases hb : SnmpQuery.get_brief_name k with
  | error e => rw [hb] at h; cases h
  | ok brief =>
    rw [hb] at h
    dsimp only at h
    split_ifs at h <;> (cases h; try simp [dictGet_dictSet])

theorem json_disk_step_host (s : Row) (kv : String × Scalar) (s1 : Row)
    (h : GetReadyNasDiskStats.disk_step s kv = .ok s1) :
    dictGet s1 "host" = dictGet s "host" := by
  obtain ⟨k, v⟩ := kv
  simp only [GetReadyNasDiskStats.disk_step] at h
  cases hb : SnmpQuery.get_brief_name k with
  | error e => rw [hb] at h; cases h
  | ok brief =>
    rw [hb] at h
    dsimp only at h
    split_ifs at h <;> (cases h; try simp [dictGet_dictSet])

/-- Every record a row loop emits comes from one successfully processed
entry. -/
theorem emitRows_ok_out (f : GetReadyNasStats.PyVal → Except PyExc Row)
    (l : List GetReadyNasStats.PyVal) (rs : List Row)
    (h : GetReadyNasStats.emitRows f l = .ok rs) :
    ∀ r ∈ rs, ∃ pv ∈ l, f pv = .ok r := by
  induction l generalizing rs with
  | nil =>
    simp only [GetReadyNasStats.emitRows] at h
    cases h
    intro r hr
    cases hr
  | cons pv0 rest ih =>
    intro r hr
    simp only [GetReadyNasStats.emitRows] at h
    cases hf : f pv0 with
    | error e => rw [hf] at h; cases h
    | ok r0 =>
      rw [hf] at h
      cases hrest : GetReadyNasStats.emitRows f rest with
      | error e => rw [hrest] at h; cases h
      | ok rs0 =>
        rw [hrest] at h
        injection h with hrs
        subst hrs
        rcases List.mem_cons.mp hr with rfl | hmem
        · exact ⟨pv0, List.mem_cons_self _ _, hf⟩
        · obtain ⟨pv, hpv, hfpv⟩ := ih rs0 hrest r hmem
          exact ⟨pv, List.mem_cons_of_mem _ hpv, hfpv⟩

/-- The class-variant disk row keeps its seeded `host` entry. -/
theorem process_disk_row_host (sysName : Scalar) (row : Row) (r : Row)
    (hok : GetReadyNasStats.process_disk_row sysName row = .ok r) :
    dictGet r "host" = some sysName := by
  have ht := processFields_track GetReadyNasStats.disk_step
      (fun fields => dictGet fields "host") (fun a _ => a)
      disk_step_host row _ r hok
  dsimp only at ht
  rw [foldl_const] at ht
  rw [ht]
  simp [dictGet_dictSet, dictGet]

theorem gather_process_disk_row_host (hn : Scalar) (row : Row) (pt : Gather.Point)
    (hok : Gather.process_disk_row hn row = .ok pt) :
    dictGet pt.tags "host" = some hn := by
  unfold Gather.process_disk_row at hok
  cases hpf : processFields Gather.disk_step row (dictSet [] "host" hn, []) with
  | error e => rw [hpf] at hok; cases hok
  | ok s1 =>
    rw [hpf] at hok
    obtain ⟨tags, fields⟩ := s1
    injection hok with hpt
    subst hpt
    have ht := processFields_track Gather.disk_step (fun s => dictGet s.1 "host")
        (fun a _ => a) gather_disk_step_tags_host row _ _ hpf
    dsimp only at ht
    rw [foldl_const] at ht
    rw [ht]
    simp [dictGet_dictSet, dictGet]

theorem json_process_disk_row_host (hn : Scalar) (row : Row) (r : Row)
    (hok : GetReadyNasDiskStats.process_disk_row hn row = .ok r) :
    dictGet r "host" = some hn := by
  have ht := processFields_track GetReadyNasDiskStats.disk_step
      (fun fields => dictGet fields "host") (fun a _ => a)
      json_disk_step_host row _ r hok
  dsimp only at ht
  rw [foldl_const] at ht
  rw [ht]
  simp [dictGet_dictSet, dictGet]

theorem gather_invocation_spec (hn : Scalar) (rows : List Row) :
    ∀ (res : Except PyExc (List Gather.Point)) (n : Nat),
      Gather.disk_table_invocation hn rows = (res, n) →
      ∀ ps, res = .ok ps →
        n = rows.length ∧
        ∀ p ∈ ps, ∃ row ∈ rows, Gather.process_disk_row hn row = .ok p := by
  induction rows with
  | nil =>
    intro res n h ps hps
    simp only [Gather.disk_table_invocation] at h
    injection h with h1 h2
    subst h1
    subst h2
    injection hps with hps2
    subst hps2
    exact ⟨rfl, fun p hp => absurd hp (List.not_mem_nil p)⟩
  | cons row rest ih =>
    intro res n h ps hps
    cases hr : Gather.process_disk_row hn row with
    | error e =>
      have heq : Gather.disk_table_invocation hn (row :: rest) = (.error e, 1) := by
        simp only [Gather.disk_table_invocation, hr]
      rw [heq] at h
      injection h with h1 h2
      subst h1
      subst h2
      cases hps
    | ok p =>
      cases hrest : Gather.disk_table_invocation hn rest with
      | mk res0 n0 =>
        cases res0 with
        | error e =>
          have heq : Gather.disk_table_invocation hn (row :: rest)
              = (.error e, n0 + 1) := by
            simp only [Gather.disk_table_invocation, hr, hrest]
          rw [heq] at h
          injection h with h1 h2
          subst h1
          subst h2
          cases hps
        | ok ps0 =>
          have heq : Gather.disk_table_invocation hn (row :: rest)
              = (.ok (p :: ps0), n0 + 1) := by
            simp only [Gather.disk_table_invocation, hr, hrest]
          rw [heq] at h
          injection h with h1 h2
          subst h1
          subst h2
          injection hps with hps2
          subst hps2
          obtain ⟨hlen, hmem⟩ := ih (.ok ps0) n0 hrest ps0 rfl
          refine ⟨by rw [List.length_cons, hlen], ?_⟩
          intro p1 hp1
          rcases List.mem_cons.mp hp1 with rfl | hm
          · exact ⟨row, List.mem_cons_self _ _, hr⟩
          · obtain ⟨row1, hrow1, hok1⟩ := hmem p1 hm
            exact ⟨row1, List.mem_cons_of_mem _ hrow1, hok1⟩

theorem json_invocation_spec (hn : Scalar) (rows : List Row) :
    ∀ (res : Except PyExc (List Row)) (n : Nat),
      GetReadyNasDiskStats.disk_table_invocation hn rows = (res, n) →
      ∀ rs, res = .ok rs →
        n = rows.length ∧
        ∀ r ∈ rs, ∃ row ∈ rows, GetReadyNasDiskStats.process_disk_row hn row = .ok r := by
  induction rows with
  | nil =>
    intro res n h rs hrs
    simp only [GetReadyNasDiskStats.disk_table_invocation] at h
    injection h with h1 h2
    subst h1
    subst h2
    injection hrs with hrs2
    subst hrs2
    exact ⟨rfl, fun r hr => absurd hr (List.not_mem_nil r)⟩
  | cons row rest ih =>
    intro res n h rs hrs
    cases hr : GetReadyNasDiskStats.process_disk_row hn row with
    | error e =>
      have heq : GetReadyNasDiskStats.disk_table_invocation hn (row :: rest)
          = (.error e, 1) := by
        simp only [GetReadyNasDiskStats.disk_table_invocation, hr]
      rw [heq] at h
      injection h with h1 h2
      subst h1
      subst h2
      cases hrs
    | ok r0 =>
      cases hrest : GetReadyNasDiskStats.disk_table_invocation hn rest with
      | mk res0 n0 =>
        cases res0 with
        | error e =>
          have heq : GetReadyNasDiskStats.disk_table_invocation hn (row :: rest)
              = (.error e, n0 + 1) := by
            simp only [GetReadyNasDiskStats.disk_table_invocation, hr, hrest]
          rw [heq] at h
          injection h with h1 h2
          subst h1
          subst h2
          cases hrs
        | ok rs0 =>
          have heq : GetReadyNasDiskStats.disk_table_invocation hn (row :: rest)
              = (.ok (r0 :: rs0), n0 + 1) := by
            simp only [GetReadyNasDiskStats.disk_table_invocation, hr, hrest]
          rw [heq] at h
          injection h with h1 h2
          subst h1
          subst h2
          injection hrs with hrs2
          subst hrs2
          obtain ⟨hlen, hmem⟩ := ih (.ok rs0) n0 hrest rs0 rfl
          refine ⟨by rw [List.length_cons, hlen], ?_⟩
          intro r1 hr1
          rcases List.mem_cons.mp hr1 with rfl | hm
          · exact ⟨row, List.mem_cons_self _ _, hr⟩
          · obtain ⟨row1, hrow1, hok1⟩ := hmem r1 hm
            exact ⟨row1, List.mem_cons_of_mem _ hrow1, hok1⟩

/-- **C3** (amended) — Every emitted record carries a `host` entry holding
the resolved device name; but only the class variant resolves that name
with a single query per invocation.  The gather and disk-stats variants
call `get_snmp_name` inside the row loop, so a walk with n rows issues n
device-name queries. -/
theorem host_field_and_name_queries :
    (∀ (sysName : Scalar) (w : GetReadyNasStats.WalkResult),
      (GetReadyNasStats.disk_table_invocation sysName w).2 = 1 ∧
      (∀ rs, (GetReadyNasStats.disk_table_invocation sysName w).1 = .ok rs →
        ∀ r ∈ rs, dictGet r "host" = some sysName)) ∧
    (∀ (hn : Scalar) (rows : List Row) (ps : List Gather.Point),
      (Gather.disk_table_invocation hn rows).1 = .ok ps →
      (Gather.disk_table_invocation hn rows).2 = rows.length ∧
      ∀ p ∈ ps, dictGet p.tags "host" = some hn) ∧
    (∀ (hn : Scalar) (rows : List Row) (rs : List Row),
      (GetReadyNasDiskStats.disk_table_invocation hn rows).1 = .ok rs →
      (GetReadyNasDiskStats.disk_table_invocation hn rows).2 = rows.length ∧
      ∀ r ∈ rs, dictGet r "host" = some hn) := by
  refine ⟨?_, ?_, ?_⟩
  · intro sysName w
    refine ⟨rfl, ?_⟩
    intro rs hok r hr
    have hok2 : GetReadyNasStats.process_readynas_disk_table sysName w = .ok rs := hok
    obtain ⟨pv, hpv, hfpv⟩ := emitRows_ok_out _ _ _ hok2 r hr
    cases pv with
    | strkey s =>
      simp [GetReadyNasStats.process_disk_entry, GetReadyNasStats.pyItems] at hfpv
    | row row0 =>
      simp only [GetReadyNasStats.process_disk_entry, GetReadyNasStats.pyItems] at hfpv
      exact process_disk_row_host sysName row0 r hfpv
  · intro hn rows ps hok
    obtain ⟨res, n, hinv⟩ : ∃ res n, Gather.disk_table_invocation hn rows = (res, n) :=
      ⟨_, _, rfl⟩
    rw [hinv] at hok
    obtain ⟨hlen, hmem⟩ := gather_invocation_spec hn rows res n hinv ps hok
    refine ⟨by rw [hinv]; exact hlen, ?_⟩
    intro p hp
    obtain ⟨row, hrow, hokrow⟩ := hmem p hp
    exact gather_process_disk_row_host hn row p hokrow
  · intro hn rows rs hok
    obtain ⟨res, n, hinv⟩ :
        ∃ res n, GetReadyNasDiskStats.disk_table_invocation hn rows = (res, n) :=
      ⟨_, _, rfl⟩
    rw [hinv] at hok
    obtain ⟨hlen, hmem⟩ := json_invocation_spec hn rows res n hinv rs hok
    refine ⟨by rw [hinv]; exact hlen, ?_⟩
    intro r hr
    obtain ⟨row, hrow, hokrow⟩ := hmem r hr
    exact json_process_disk_row_host hn row r hokrow

/-- Counterexample for **C3** as stated: a successful two-row disk walk in
the gather variant issues two `get_snmp_name` device-name queries — one per
row, not the single per-invocation query the claim requires; the JSON
disk-stats variant does the same. -/
theorem per_row_name_query_cex :
    (Gather.disk_table_invocation (.str "bigbang")
        [[("READYNASOS-MIB::diskNumber.1", .int 1),
          ("READYNASOS-MIB::diskState.1", .str "ONLINE")],
         [("READYNASOS-MIB::diskNumber.2", .int 2),
          ("READYNASOS-MIB::diskState.2", .str "OFFLINE")]]).2 = 2 ∧
    (∃ ps, (Gather.disk_table_invocation (.str "bigbang")
        [[("READYNASOS-MIB::diskNumber.1", .int 1),
          ("READYNASOS-MIB::diskState.1", .str "ONLINE")],
         [("READYNASOS-MIB::diskNumber.2", .int 2),
          ("READYNASOS-MIB::diskState.2", .str "OFFLINE")]]).1 = .ok ps) ∧
    (GetReadyNasDiskStats.disk_table_invocation (.str "bigbang")
        [[("READYNASOS-MIB::diskNumber.1", .int 1),
          ("READYNASOS-MIB::diskState.1", .str "ONLINE")],
         [("READYNASOS-MIB::diskNumber.2", .int 2),
          ("READYNASOS-MIB::diskState.2", .str "OFFLINE")]]).2 = 2 ∧
    (2 : Nat) ≠ 1 := by
  exact ⟨rfl, ⟨_, rfl⟩, rfl, by decide⟩

/-- Witness for **C3** (amended): the class variant's one-row disk
invocation makes exactly one device-name query and records `host`. -/
theorem host_field_and_name_queries_witness :
    (GetReadyNasStats.disk_table_invocation (.str "nas")
        (.pylist [[("diskNumber", .int 1)]])).2 = 1 ∧
    dictGet [("host", Scalar.str "nas"), ("disk_number", Scalar.int 1)] "host"
      = some (.str "nas") :=
  ⟨(host_field_and_name_queries.1 (.str "nas") (.pylist [[("diskNumber", .int 1)]])).1,
   (host_field_and_name_queries.1 (.str "nas") (.pylist [[("diskNumber", .int 1)]])).2
      [[("host", Scalar.str "nas"), ("disk_number", Scalar.int 1)]] (by decide)
      [("host", Scalar.str "nas"), ("disk_number", Scalar.int 1)] (by decide)⟩
